import Mathlib

set_option maxHeartbeats 1000000

/-!
Verification of the profile-stack resolution and switch-orchestration core of
VRProfileSwitcher (src/core/switcher.py, src/core/profile_manager.py,
src/core/module_base.py), as a shallow embedding in Lean 4.

Modelling conventions:
  * Python dicts are insertion-ordered association lists with unique keys;
    `dictSet` mirrors `d[k] = v` (overwrite in place or append), `dictGet?`
    mirrors `d.get(k)`.
  * A `Profile` keeps the fields the core logic reads: `name` and the
    per-module config map.  The timestamp / notes metadata fields are not
    read by any orchestration decision and are omitted.
  * Filesystem paths are lists of path components (`DirPath`).
  * The per-module operations (backup / restore / validate_backup /
    get_status / trigger_reload), which perform I/O in the source, are an
    explicit environment `ModuleEnv σ` over an abstract world state `σ`;
    an operation that raises a Python exception is modelled by
    `Except.error`.  `Switcher._make_module` failures (unknown module id)
    are subsumed by the first oracle call of the corresponding try-block
    throwing.
  * Each orchestration function additionally returns the trace of module
    operations it invoked (`Event`), mirroring exactly the call sites in
    the source; the optional progress callback performs no mutation and is
    not modelled.
-/

abbrev DirPath := List String

abbrev ModOptions := List (String × String)

/-- One value of a profile's `modules` dict: `{"enabled": bool, "options": {...}}`. -/
structure ModuleCfg where
  enabled : Bool
  options : ModOptions
deriving DecidableEq, Repr

/-- `core/profile_manager.py` `Profile` (the fields the core reads). -/
structure Profile where
  name : String
  modules : List (String × ModuleCfg)
deriving DecidableEq, Repr

/-- Python `d.get(k)` on an insertion-ordered dict. -/
def dictGet? {α β : Type} [DecidableEq α] : List (α × β) → α → Option β
  | [], _ => none
  | (k1, v) :: t, k => if k1 = k then some v else dictGet? t k

/-- Python `d[k] = v`: overwrite the existing entry in place, else append. -/
def dictSet {α β : Type} [DecidableEq α] (d : List (α × β)) (k : α) (v : β) :
    List (α × β) :=
  match d with
  | [] => [(k, v)]
  | (k1, v1) :: t => if k1 = k then (k, v) :: t else (k1, v1) :: dictSet t k v

/-- `Profile.enabled_modules`: ids whose config record has `enabled = true`. -/
def Profile.enabled_modules (p : Profile) : List String :=
  (p.modules.filter (fun kv => kv.2.enabled)).map (fun kv => kv.1)

/-- `Profile.get_module_options`: the options dict, `{}` when absent. -/
def Profile.get_module_options (p : Profile) (mid : String) : ModOptions :=
  ((dictGet? p.modules mid).map (fun c => c.options)).getD []

/-- Well-formedness a Python dict guarantees for `Profile.modules`: unique keys. -/
def Profile.wf (p : Profile) : Prop :=
  (p.modules.map Prod.fst).Nodup

instance (p : Profile) : Decidable p.wf := by
  unfold Profile.wf; infer_instance

/-- `ProfileManager.AUTO_BACKUP_NAME`. -/
def autoBackupName : String := "__last_backup"

/-- `ProfileManager._profile_dir`: `base_dir / name`. -/
def profileDir (base : DirPath) (name : String) : DirPath :=
  base ++ [name]

/-- `ProfileManager.auto_backup_dir`: `base_dir / AUTO_BACKUP_NAME`. -/
def autoBackupDir (base : DirPath) : DirPath :=
  base ++ [autoBackupName]

/-- `Switcher.resolve_stack`: fold the stack low → high, each profile
overwriting the owner entry of each of its enabled modules. -/
def Switcher.resolve_stack (stack : List Profile) : List (String × Profile) :=
  stack.foldl
    (fun result profile =>
      profile.enabled_modules.foldl (fun r mid => dictSet r mid profile) result)
    []

/-- `switcher.py` `StackConflict`. -/
structure StackConflict where
  module_id : String
  display_name : String
  incoming_profile : String
  active_profile : String
deriving DecidableEq, Repr

/-- `switcher.py` `ModuleConflict`. -/
structure ModuleConflict where
  module_id : String
  display_name : String
  pids : List Nat
  can_reload : Bool
deriving DecidableEq, Repr

/-- `Switcher.check_stack_conflicts`: for every already-active profile whose
name differs from the incoming one, for every module both enable, one
`StackConflict`.  `displayOf` models the `MODULE_REGISTRY` display-name
lookup (with its fall-back to the raw id). -/
def Switcher.check_stack_conflicts (displayOf : String → String)
    (incoming : Profile) (stack : List Profile) : List StackConflict :=
  (stack.filter (fun active => !(active.name == incoming.name))).flatMap
    (fun active =>
      ((active.enabled_modules).filter
          (fun mid => (incoming.enabled_modules).elem mid)).map
        (fun mid =>
          { module_id := mid
            display_name := displayOf mid
            incoming_profile := incoming.name
            active_profile := active.name }))

/-! ### Lookup lemmas for the dict model -/

theorem dictGet?_dictSet {α β : Type} [DecidableEq α] (d : List (α × β)) (k k1 : α) (v : β) :
    dictGet? (dictSet d k v) k1 = if k1 = k then some v else dictGet? d k1 := by
  induction d with
  | nil =>
    by_cases h : k = k1
    · subst h; simp [dictSet, dictGet?]
    · have h1 : ¬ k1 = k := fun he => h he.symm
      simp [dictSet, dictGet?, h, h1]
  | cons hd t ih =>
    obtain ⟨k2, v2⟩ := hd
    by_cases h2 : k2 = k
    · subst h2
      by_cases h : k2 = k1
      · subst h; simp [dictSet, dictGet?]
      · have h1 : ¬ k1 = k2 := fun he => h he.symm
        simp [dictSet, dictGet?, h, h1]
    · by_cases h : k2 = k1
      · subst h
        simp [dictSet, dictGet?, if_neg h2, h2]
      · simp [dictSet, dictGet?, if_neg h2, h, ih]

theorem dictGet?_foldl_dictSet (mids : List String) (p : Profile)
    (acc : List (String × Profile)) (mid : String) :
    dictGet? (mids.foldl (fun r m => dictSet r m p) acc) mid
      = if mid ∈ mids then some p else dictGet? acc mid := by
  induction mids generalizing acc with
  | nil => simp
  | cons m t ih =>
    simp only [List.foldl_cons, ih, dictGet?_dictSet, List.mem_cons]
    by_cases ht : mid ∈ t
    · simp [ht]
    · by_cases hm : mid = m <;> simp [ht, hm]

theorem resolve_stack_lookup_aux (stack : List Profile)
    (acc : List (String × Profile)) (mid : String) :
    dictGet?
        (stack.foldl
          (fun result profile =>
            profile.enabled_modules.foldl (fun r m => dictSet r m profile) result)
          acc) mid
      = (match stack.reverse.find? (fun p => (p.enabled_modules).contains mid) with
          | some q => some q
          | none => dictGet? acc mid) := by
  induction stack generalizing acc with
  | nil => simp
  | cons p t ih =>
    simp only [List.foldl_cons, List.reverse_cons, List.find?_append, ih,
      dictGet?_foldl_dictSet]
    cases h : t.reverse.find? (fun q => (q.enabled_modules).contains mid) with
    | some q => simp [h]
    | none =>
      by_cases hp : mid ∈ p.enabled_modules <;>
        simp [h, List.find?, hp]

/-- Claim C1: stack resolution is exactly the low→high overwrite fold: the
owner of a module is the highest-priority (last) stack profile that enables
it, a module enabled by no stack member is absent from the mapping, and the
result is a pure function of the stack (determinism is definitional). -/
theorem resolve_stack_owner (stack : List Profile) (mid : String) :
    dictGet? (Switcher.resolve_stack stack) mid
      = stack.reverse.find? (fun p => (p.enabled_modules).contains mid) := by
  have h := resolve_stack_lookup_aux stack [] mid
  rw [Switcher.resolve_stack] at *
  rw [h]
  cases hf : stack.reverse.find? (fun p => (p.enabled_modules).contains mid) <;>
    simp [dictGet?]

/-! ### The module-operation environment and the orchestrator -/

/-- `core/module_base.py` `ModuleStatus`. -/
structure ModuleStatus where
  is_running : Bool
  process_pids : List Nat
  config_paths_exist : Bool
deriving DecidableEq, Repr

/-- `switcher.py` `OperationResult`. -/
structure OperationResult where
  success : Bool
  module_results : List (String × (Bool × String))
  errors : List String
  warnings : List String
deriving DecidableEq, Repr

/-- Trace of module operations the orchestrator invokes (one constructor per
call site kind in the source). -/
inductive Event where
  | validateCall (mid : String) (opts : ModOptions) (dir : DirPath)
  | restoreCall (mid : String) (opts : ModOptions) (dir : DirPath)
  | backupCall (mid : String) (opts : ModOptions) (dir : DirPath)
  | statusCall (mid : String)
  | reloadCall (mid : String)
  | revertCall (mid : String)
deriving DecidableEq, Repr

/-- The behaviour of the pluggable module layer (`modules/` + `module_base.py`)
and of the profile store, over an abstract world state `σ`.  An operation that
raises a Python exception returns `Except.error`; `backup`/`restore` and
`remove_launch_args` may mutate the world, the query operations only read it.
`_make_module` failures are subsumed by the first oracle call of the
surrounding try-block returning `Except.error`. -/
structure ModuleEnv (σ : Type) where
  base_dir : DirPath
  display_name : String → String
  can_reload_live : String → ModOptions → Bool
  backup : String → ModOptions → DirPath → σ → Except String (Bool × String) × σ
  restore : String → ModOptions → DirPath → σ → Except String (Bool × String) × σ
  validate_backup : String → ModOptions → DirPath → σ → Except String (Bool × String)
  get_status : String → ModOptions → σ → Except String ModuleStatus
  trigger_reload : String → ModOptions → σ → Except String Bool
  remove_launch_args : σ → Except String (Bool × String) × σ
  write_auto_meta : Profile → σ → σ
  save_profile_meta : Profile → σ → σ
  touch_last_used : String → σ → σ

/-- Accumulator threaded through an operation: the result being built, the
world state, and the trace of module operations so far. -/
structure OpAcc (σ : Type) where
  res : OperationResult
  st : σ
  evs : List Event

/-- `Switcher.check_conflicts`: running-app conflicts for enabled modules
that do not support live reload; a per-module exception is logged only. -/
def Switcher.check_conflicts {σ : Type} (env : ModuleEnv σ) (profile : Profile)
    (s : σ) : List ModuleConflict :=
  profile.enabled_modules.foldl
    (fun conflicts mid =>
      match env.get_status mid (profile.get_module_options mid) s with
      | Except.error _ => conflicts
      | Except.ok status =>
          if status.is_running && !(env.can_reload_live mid (profile.get_module_options mid)) then
            conflicts ++ [{ module_id := mid
                            display_name := env.display_name mid
                            pids := status.process_pids
                            can_reload := false }]
          else conflicts)
    []


/-- One iteration of the `Switcher.backup_to_profile` loop. -/
def Switcher.backupStep {σ : Type} (env : ModuleEnv σ) (profile : Profile)
    (dest_dir : DirPath) (acc : OpAcc σ) (mid : String) : OpAcc σ :=
  match env.backup mid (profile.get_module_options mid) dest_dir acc.st with
  | (Except.ok (ok, msg), s1) =>
      if ok then
        { res := { acc.res with module_results := dictSet acc.res.module_results mid (ok, msg) }
          st := s1
          evs := acc.evs ++ [Event.backupCall mid (profile.get_module_options mid) dest_dir] }
      else
        { res := { acc.res with
                     module_results := dictSet acc.res.module_results mid (ok, msg)
                     success := false
                     errors := acc.res.errors ++ [env.display_name mid ++ ": " ++ msg] }
          st := s1
          evs := acc.evs ++ [Event.backupCall mid (profile.get_module_options mid) dest_dir] }
  | (Except.error e, s1) =>
      { res := { acc.res with
                   module_results := dictSet acc.res.module_results mid (false, e)
                   success := false
                   errors := acc.res.errors ++ [mid ++ ": " ++ e] }
        st := s1
        evs := acc.evs ++ [Event.backupCall mid (profile.get_module_options mid) dest_dir] }

/-- `Switcher.backup_to_profile` (the trailing `save_profile_meta` runs after
the loop, unconditionally). -/
def Switcher.backup_to_profile {σ : Type} (env : ModuleEnv σ) (profile : Profile)
    (s : σ) : OperationResult × σ × List Event :=
  ((profile.enabled_modules.foldl
      (Switcher.backupStep env profile (profileDir env.base_dir profile.name))
      { res := { success := true, module_results := [], errors := [], warnings := [] }
        st := s, evs := [] }).res,
   env.save_profile_meta profile
     (profile.enabled_modules.foldl
       (Switcher.backupStep env profile (profileDir env.base_dir profile.name))
       { res := { success := true, module_results := [], errors := [], warnings := [] }
         st := s, evs := [] }).st,
   (profile.enabled_modules.foldl
      (Switcher.backupStep env profile (profileDir env.base_dir profile.name))
      { res := { success := true, module_results := [], errors := [], warnings := [] }
        st := s, evs := [] }).evs)

/-- One iteration of the restore loop of `Switcher.load_into_stack`.
An exception anywhere in the try-block (validate / restore / status / reload)
sets the module's result entry to the failure, flips `success`, and records a
hard error — mirroring the per-iteration `except` clause.  (In the source the
successful-restore entry is written first and overwritten by the exception
handler; only the final value is observable, which is what each branch
records here.) -/
def Switcher.loadStep {σ : Type} (env : ModuleEnv σ) (incoming : Profile)
    (src_dir : DirPath) (acc : OpAcc σ) (mid : String) : OpAcc σ :=
  match env.validate_backup mid (incoming.get_module_options mid) src_dir acc.st with
  | Except.error e =>
      { res := { acc.res with
                   module_results := dictSet acc.res.module_results mid (false, e)
                   success := false
                   errors := acc.res.errors ++ [mid ++ ": " ++ e] }
        st := acc.st
        evs := acc.evs ++ [Event.validateCall mid (incoming.get_module_options mid) src_dir] }
  | Except.ok (false, vmsg) =>
      { res := { acc.res with
                   module_results := dictSet acc.res.module_results mid
                     (false, "No backup: " ++ vmsg)
                   warnings := acc.res.warnings ++ [env.display_name mid ++ ": " ++ vmsg] }
        st := acc.st
        evs := acc.evs ++ [Event.validateCall mid (incoming.get_module_options mid) src_dir] }
  | Except.ok (true, _) =>
      match env.restore mid (incoming.get_module_options mid) src_dir acc.st with
      | (Except.error e, s1) =>
          { res := { acc.res with
                       module_results := dictSet acc.res.module_results mid (false, e)
                       success := false
                       errors := acc.res.errors ++ [mid ++ ": " ++ e] }
            st := s1
            evs := acc.evs ++ [Event.validateCall mid (incoming.get_module_options mid) src_dir,
                               Event.restoreCall mid (incoming.get_module_options mid) src_dir] }
      | (Except.ok (ok, msg), s1) =>
          if ok then
            match env.get_status mid (incoming.get_module_options mid) s1 with
            | Except.error e =>
                { res := { acc.res with
                             module_results := dictSet acc.res.module_results mid (false, e)
                             success := false
                             errors := acc.res.errors ++ [mid ++ ": " ++ e] }
                  st := s1
                  evs := acc.evs ++ [Event.validateCall mid (incoming.get_module_options mid) src_dir,
                                     Event.restoreCall mid (incoming.get_module_options mid) src_dir,
                                     Event.statusCall mid] }
            | Except.ok status =>
                if status.is_running && env.can_reload_live mid (incoming.get_module_options mid) then
                  match env.trigger_reload mid (incoming.get_module_options mid) s1 with
                  | Except.error e =>
                      { res := { acc.res with
                                   module_results := dictSet acc.res.module_results mid (false, e)
                                   success := false
                                   errors := acc.res.errors ++ [mid ++ ": " ++ e] }
                        st := s1
                        evs := acc.evs ++ [Event.validateCall mid (incoming.get_module_options mid) src_dir,
                                           Event.restoreCall mid (incoming.get_module_options mid) src_dir,
                                           Event.statusCall mid, Event.reloadCall mid] }
                  | Except.ok rok =>
                      if rok then
                        { res := { acc.res with
                                     module_results := dictSet acc.res.module_results mid (ok, msg) }
                          st := s1
                          evs := acc.evs ++ [Event.validateCall mid (incoming.get_module_options mid) src_dir,
                                             Event.restoreCall mid (incoming.get_module_options mid) src_dir,
                                             Event.statusCall mid, Event.reloadCall mid] }
                      else
                        { res := { acc.res with
                                     module_results := dictSet acc.res.module_results mid (ok, msg)
                                     warnings := acc.res.warnings ++
                                       [env.display_name mid ++
                                         ": reload trigger failed — may need restart"] }
                          st := s1
                          evs := acc.evs ++ [Event.validateCall mid (incoming.get_module_options mid) src_dir,
                                             Event.restoreCall mid (incoming.get_module_options mid) src_dir,
                                             Event.statusCall mid, Event.reloadCall mid] }
                else
                  { res := { acc.res with
                               module_results := dictSet acc.res.module_results mid (ok, msg) }
                    st := s1
                    evs := acc.evs ++ [Event.validateCall mid (incoming.get_module_options mid) src_dir,
                                       Event.restoreCall mid (incoming.get_module_options mid) src_dir,
                                       Event.statusCall mid] }
          else
            { res := { acc.res with
                         module_results := dictSet acc.res.module_results mid (ok, msg)
                         success := false
                         errors := acc.res.errors ++ [env.display_name mid ++ ": " ++ msg] }
              st := s1
              evs := acc.evs ++ [Event.validateCall mid (incoming.get_module_options mid) src_dir,
                                 Event.restoreCall mid (incoming.get_module_options mid) src_dir] }

/-- `resolution.get(mid, incoming)` in `Switcher._auto_backup_affected`: the
profile that currently owns `mid` before `incoming` is added. -/
def autoOwner (incoming : Profile) (current_stack : List Profile) (mid : String) : Profile :=
  (dictGet? (Switcher.resolve_stack current_stack) mid).getD incoming

/-- The synthetic `__last_backup` profile metadata `_auto_backup_affected`
writes (each touched module's record taken from its current owner). -/
def autoBackupMeta (incoming : Profile) (current_stack : List Profile) : Profile :=
  { name := autoBackupName
    modules := incoming.enabled_modules.foldl
      (fun d mid =>
        dictSet d mid
          ((dictGet? (autoOwner incoming current_stack mid).modules mid).getD
            { enabled := true, options := [] }))
      [] }

/-- `Switcher._auto_backup_affected`: snapshot live state of every module the
incoming profile will touch, each using the options of the profile that
currently owns it (resolution over the stack before `incoming` is added),
falling back to `incoming` itself.  Both the returned status and any
exception of each per-module backup are ignored (logged only); the state
effect of the backup call is kept. -/
def Switcher.auto_backup_affected {σ : Type} (env : ModuleEnv σ) (incoming : Profile)
    (current_stack : List Profile) (s : σ) : σ × List Event :=
  incoming.enabled_modules.foldl
    (fun (acc : σ × List Event) mid =>
      ((env.backup mid ((autoOwner incoming current_stack mid).get_module_options mid)
          (autoBackupDir env.base_dir) acc.1).2,
       acc.2 ++ [Event.backupCall mid
          ((autoOwner incoming current_stack mid).get_module_options mid)
          (autoBackupDir env.base_dir)]))
    (env.write_auto_meta (autoBackupMeta incoming current_stack) s, [])

/-- The tail of `Switcher.load_into_stack`: on overall success mark the
incoming profile most-recently-used. -/
def Switcher.loadFinish {σ : Type} (env : ModuleEnv σ) (incoming : Profile)
    (acc : OpAcc σ) : OperationResult × σ × List Event :=
  if acc.res.success then (acc.res, env.touch_last_used incoming.name acc.st, acc.evs)
  else (acc.res, acc.st, acc.evs)

/-- `Switcher.load_into_stack`. -/
def Switcher.load_into_stack {σ : Type} (env : ModuleEnv σ) (incoming : Profile)
    (current_stack : List Profile) (auto_backup_first : Bool) (s : σ) :
    OperationResult × σ × List Event :=
  Switcher.loadFinish env incoming
    (incoming.enabled_modules.foldl
      (Switcher.loadStep env incoming (profileDir env.base_dir incoming.name))
      { res := { success := true, module_results := [], errors := [], warnings := [] }
        st := (if auto_backup_first
               then Switcher.auto_backup_affected env incoming current_stack s
               else (s, [])).1
        evs := (if auto_backup_first
                then Switcher.auto_backup_affected env incoming current_stack s
                else (s, [])).2 })

/-- `Switcher._revert_module_to_default`: only the `resonite` module has
external state to revert (its `remove_launch_args`, which exists on the
class, so the `hasattr` test passes); all other modules are untouched. -/
def Switcher.revert_module_to_default {σ : Type} (env : ModuleEnv σ) (mid : String)
    (acc : OpAcc σ) : OpAcc σ :=
  if mid = "resonite" then
    match env.remove_launch_args acc.st with
    | (Except.ok (ok, msg), s1) =>
        if ok then
          { res := { acc.res with
                       module_results := dictSet acc.res.module_results (mid ++ "_cleanup") (ok, msg) }
            st := s1
            evs := acc.evs ++ [Event.revertCall mid] }
        else
          { res := { acc.res with
                       module_results := dictSet acc.res.module_results (mid ++ "_cleanup") (ok, msg)
                       warnings := acc.res.warnings ++ ["Resonite cleanup: " ++ msg] }
            st := s1
            evs := acc.evs ++ [Event.revertCall mid] }
    | (Except.error e, s1) =>
        { res := { acc.res with
                     warnings := acc.res.warnings ++ ["Resonite cleanup failed: " ++ e] }
          st := s1
          evs := acc.evs ++ [Event.revertCall mid] }
  else { acc with evs := acc.evs ++ [Event.revertCall mid] }

/-- One iteration of the `Switcher.unload_from_stack` loop. -/
def Switcher.unloadStep {σ : Type} (env : ModuleEnv σ)
    (resolution : List (String × Profile)) (acc : OpAcc σ) (mid : String) : OpAcc σ :=
  match dictGet? resolution mid with
  | some fallback =>
      match env.validate_backup mid (fallback.get_module_options mid)
              (profileDir env.base_dir fallback.name) acc.st with
      | Except.error e =>
          { res := { acc.res with warnings := acc.res.warnings ++ [mid ++ ": " ++ e] }
            st := acc.st
            evs := acc.evs ++ [Event.validateCall mid (fallback.get_module_options mid)
                                 (profileDir env.base_dir fallback.name)] }
      | Except.ok (true, _) =>
          match env.restore mid (fallback.get_module_options mid)
                  (profileDir env.base_dir fallback.name) acc.st with
          | (Except.error e, s1) =>
              { res := { acc.res with warnings := acc.res.warnings ++ [mid ++ ": " ++ e] }
                st := s1
                evs := acc.evs ++ [Event.validateCall mid (fallback.get_module_options mid)
                                     (profileDir env.base_dir fallback.name),
                                   Event.restoreCall mid (fallback.get_module_options mid)
                                     (profileDir env.base_dir fallback.name)] }
          | (Except.ok (ok, msg), s1) =>
              if ok then
                { res := { acc.res with
                             module_results := dictSet acc.res.module_results mid (ok, msg) }
                  st := s1
                  evs := acc.evs ++ [Event.validateCall mid (fallback.get_module_options mid)
                                       (profileDir env.base_dir fallback.name),
                                     Event.restoreCall mid (fallback.get_module_options mid)
                                       (profileDir env.base_dir fallback.name)] }
              else
                { res := { acc.res with
                             module_results := dictSet acc.res.module_results mid (ok, msg)
                             warnings := acc.res.warnings ++
                               [env.display_name mid ++ ": " ++ msg] }
                  st := s1
                  evs := acc.evs ++ [Event.validateCall mid (fallback.get_module_options mid)
                                       (profileDir env.base_dir fallback.name),
                                     Event.restoreCall mid (fallback.get_module_options mid)
                                       (profileDir env.base_dir fallback.name)] }
      | Except.ok (false, vmsg) =>
          { res := { acc.res with
                       warnings := acc.res.warnings ++
                         [env.display_name mid ++ ": fallback '" ++ fallback.name ++
                           "' has no backup — " ++ vmsg] }
            st := acc.st
            evs := acc.evs ++ [Event.validateCall mid (fallback.get_module_options mid)
                                 (profileDir env.base_dir fallback.name)] }
  | none => Switcher.revert_module_to_default env mid acc

/-- `Switcher.unload_from_stack`. -/
def Switcher.unload_from_stack {σ : Type} (env : ModuleEnv σ) (profile : Profile)
    (remaining_stack : List Profile) (s : σ) : OperationResult × σ × List Event :=
  ((profile.enabled_modules.foldl
      (Switcher.unloadStep env (Switcher.resolve_stack remaining_stack))
      { res := { success := true, module_results := [], errors := [], warnings := [] }
        st := s, evs := [] }).res,
   (profile.enabled_modules.foldl
      (Switcher.unloadStep env (Switcher.resolve_stack remaining_stack))
      { res := { success := true, module_results := [], errors := [], warnings := [] }
        st := s, evs := [] }).st,
   (profile.enabled_modules.foldl
      (Switcher.unloadStep env (Switcher.resolve_stack remaining_stack))
      { res := { success := true, module_results := [], errors := [], warnings := [] }
        st := s, evs := [] }).evs)

/-! ### Generic fold invariant helpers -/

theorem foldl_preserve {α β : Type _} (step : β → α → β) (P : β → Prop)
    (h : ∀ b a, P b → P (step b a)) :
    ∀ (l : List α) (b : β), P b → P (l.foldl step b) := by
  intro l
  induction l with
  | nil => intro b hb; simpa using hb
  | cons a t ih => intro b hb; exact ih (step b a) (h b a hb)

theorem foldl_preserve_of_mem {α β : Type _} (step : β → α → β) (P : β → Prop) :
    ∀ (l : List α), (∀ b a, a ∈ l → P b → P (step b a)) →
      ∀ (b : β), P b → P (l.foldl step b) := by
  intro l
  induction l with
  | nil => intro _ b hb; simpa using hb
  | cons a t ih =>
    intro h b hb
    exact ih (fun b1 a1 ha1 hb1 => h b1 a1 (List.mem_cons_of_mem a ha1) hb1)
      (step b a) (h b a (List.mem_cons_self a t) hb)

theorem foldl_reach {α β : Type _} (step : β → α → β) (P : β → Prop) (x : α)
    (hpres : ∀ b a, P b → P (step b a)) (hhit : ∀ b, P (step b x)) :
    ∀ (l : List α) (b : β), x ∈ l → P (l.foldl step b) := by
  intro l
  induction l with
  | nil => intro b hb; simp at hb
  | cons a t ih =>
    intro b hx
    rcases List.mem_cons.mp hx with h | h
    · subst h
      exact foldl_preserve step P hpres t (step b x) (hhit b)
    · exact ih (step b a) h

/-! ### Success flag vs. hard errors -/

theorem loadStep_success_iff {σ : Type} (env : ModuleEnv σ) (incoming : Profile)
    (src_dir : DirPath) (acc : OpAcc σ) (mid : String)
    (h : acc.res.success = true ↔ acc.res.errors = []) :
    (Switcher.loadStep env incoming src_dir acc mid).res.success = true
      ↔ (Switcher.loadStep env incoming src_dir acc mid).res.errors = [] := by
  unfold Switcher.loadStep
  repeat' split
  all_goals simp_all

theorem backupStep_success_iff {σ : Type} (env : ModuleEnv σ) (profile : Profile)
    (dest_dir : DirPath) (acc : OpAcc σ) (mid : String)
    (h : acc.res.success = true ↔ acc.res.errors = []) :
    (Switcher.backupStep env profile dest_dir acc mid).res.success = true
      ↔ (Switcher.backupStep env profile dest_dir acc mid).res.errors = [] := by
  unfold Switcher.backupStep
  repeat' split
  all_goals simp_all

theorem unloadStep_keeps_flags {σ : Type} (env : ModuleEnv σ)
    (resolution : List (String × Profile)) (acc : OpAcc σ) (mid : String) :
    (Switcher.unloadStep env resolution acc mid).res.success = acc.res.success
      ∧ (Switcher.unloadStep env resolution acc mid).res.errors = acc.res.errors := by
  unfold Switcher.unloadStep Switcher.revert_module_to_default
  repeat' split
  all_goals simp_all

theorem load_into_stack_res_eq {σ : Type} (env : ModuleEnv σ) (incoming : Profile)
    (current_stack : List Profile) (ab : Bool) (s : σ) :
    (Switcher.load_into_stack env incoming current_stack ab s).1
      = (incoming.enabled_modules.foldl
          (Switcher.loadStep env incoming (profileDir env.base_dir incoming.name))
          { res := { success := true, module_results := [], errors := [], warnings := [] }
            st := (if ab then Switcher.auto_backup_affected env incoming current_stack s
                   else (s, [])).1
            evs := (if ab then Switcher.auto_backup_affected env incoming current_stack s
                    else (s, [])).2 }).res := by
  unfold Switcher.load_into_stack Switcher.loadFinish
  split <;> (split <;> rfl)

theorem unload_success_and_errors {σ : Type} (env : ModuleEnv σ) (profile : Profile)
    (remaining_stack : List Profile) (s : σ) :
    (Switcher.unload_from_stack env profile remaining_stack s).1.success = true
      ∧ (Switcher.unload_from_stack env profile remaining_stack s).1.errors = [] := by
  unfold Switcher.unload_from_stack
  exact foldl_preserve _ (fun (acc : OpAcc σ) => acc.res.success = true ∧ acc.res.errors = [])
    (fun b a hb => by
      have h := unloadStep_keeps_flags env (Switcher.resolve_stack remaining_stack) b a
      exact ⟨h.1.trans hb.1, h.2.trans hb.2⟩)
    profile.enabled_modules _ ⟨rfl, rfl⟩

/-- Claim C2 (amended): for each of the three operations, the overall
`success` flag is `true` exactly when no hard error was recorded (the
`errors` list is empty); per-application failures that the code records only
as warnings — a missing backup skipped during load, and fallback restore
failures or exceptions during unload — never flip it. -/
theorem success_iff_no_hard_error {σ : Type} (env : ModuleEnv σ)
    (incoming profile qprofile : Profile)
    (current_stack remaining_stack : List Profile) (ab : Bool) (s1 s2 s3 : σ) :
    ((Switcher.load_into_stack env incoming current_stack ab s1).1.success = true
       ↔ (Switcher.load_into_stack env incoming current_stack ab s1).1.errors = [])
    ∧ ((Switcher.unload_from_stack env profile remaining_stack s2).1.success = true
       ↔ (Switcher.unload_from_stack env profile remaining_stack s2).1.errors = [])
    ∧ ((Switcher.backup_to_profile env qprofile s3).1.success = true
       ↔ (Switcher.backup_to_profile env qprofile s3).1.errors = []) := by
  refine ⟨?_, ?_, ?_⟩
  · rw [load_into_stack_res_eq]
    exact foldl_preserve _
      (fun (acc : OpAcc σ) => acc.res.success = true ↔ acc.res.errors = [])
      (fun b a hb => loadStep_success_iff env incoming _ b a hb)
      incoming.enabled_modules _ (by simp)
  · have h := unload_success_and_errors env profile remaining_stack s2
    simp [h.1, h.2]
  · unfold Switcher.backup_to_profile
    exact foldl_preserve _
      (fun (acc : OpAcc σ) => acc.res.success = true ↔ acc.res.errors = [])
      (fun b a hb => backupStep_success_iff env qprofile _ b a hb)
      qprofile.enabled_modules _ (by simp)

/-- A concrete all-succeeding environment over a trivial world, for concrete
evaluations. -/
def okEnv : ModuleEnv Unit :=
  { base_dir := ["profiles"]
    display_name := fun mid => mid
    can_reload_live := fun _ _ => false
    backup := fun _ _ _ u => (Except.ok (true, "ok"), u)
    restore := fun _ _ _ u => (Except.ok (true, "ok"), u)
    validate_backup := fun _ _ _ _ => Except.ok (true, "OK")
    get_status := fun _ _ _ =>
      Except.ok { is_running := false, process_pids := [], config_paths_exist := true }
    trigger_reload := fun _ _ _ => Except.ok true
    remove_launch_args := fun u => (Except.ok (true, "removed"), u)
    write_auto_meta := fun _ u => u
    save_profile_meta := fun _ u => u
    touch_last_used := fun _ u => u }

/-- A profile enabling exactly one module `m1`. -/
def oneModProfile : Profile := { name := "P", modules := [("m1", { enabled := true, options := [] })] }

/-- Claim C2, counterexample to the claim as stated: when a module's backup
validation fails during `load_into_stack`, the code records the attempted
per-application result `("m1", (false, "No backup: nope"))` — a failure —
yet leaves the overall `success` flag `true`; so "success is false exactly
when at least one attempted per-application result is a failure" does not
hold. -/
theorem success_flag_claim_cex :
    (Switcher.load_into_stack
        { okEnv with validate_backup := fun _ _ _ _ => Except.ok (false, "nope") }
        oneModProfile [] false ()).1.success = true
    ∧ dictGet? (Switcher.load_into_stack
        { okEnv with validate_backup := fun _ _ _ _ => Except.ok (false, "nope") }
        oneModProfile [] false ()).1.module_results "m1"
      = some (false, "No backup: nope") := by
  exact ⟨rfl, rfl⟩

/-- Claim C10: the auto-backup phase of `load_into_stack` can influence the
outcome only through its world-state effect: two backup oracles with the
same state effect — even if one fails or raises where the other succeeds —
produce identical `load_into_stack` outputs (same `OperationResult`: no
error, no warning, no per-application entry, same success flag; same trace,
so the load still proceeds to the restore phase). -/
theorem load_ignores_auto_backup_outcome {σ : Type} (env : ModuleEnv σ)
    (f g : String → ModOptions → DirPath → σ → Except String (Bool × String) × σ)
    (hstate : ∀ mid o d t, (f mid o d t).2 = (g mid o d t).2)
    (incoming : Profile) (current_stack : List Profile) (ab : Bool) (s : σ) :
    Switcher.load_into_stack { env with backup := f } incoming current_stack ab s
      = Switcher.load_into_stack { env with backup := g } incoming current_stack ab s := by
  have hauto : Switcher.auto_backup_affected { env with backup := f } incoming current_stack s
      = Switcher.auto_backup_affected { env with backup := g } incoming current_stack s := by
    unfold Switcher.auto_backup_affected
    have hfun :
        (fun (acc : σ × List Event) mid =>
          (((({ env with backup := f } : ModuleEnv σ)).backup mid
              ((autoOwner incoming current_stack mid).get_module_options mid)
              (autoBackupDir ({ env with backup := f } : ModuleEnv σ).base_dir) acc.1).2,
           acc.2 ++ [Event.backupCall mid
              ((autoOwner incoming current_stack mid).get_module_options mid)
              (autoBackupDir ({ env with backup := f } : ModuleEnv σ).base_dir)]))
        = (fun (acc : σ × List Event) mid =>
          (((({ env with backup := g } : ModuleEnv σ)).backup mid
              ((autoOwner incoming current_stack mid).get_module_options mid)
              (autoBackupDir ({ env with backup := g } : ModuleEnv σ).base_dir) acc.1).2,
           acc.2 ++ [Event.backupCall mid
              ((autoOwner incoming current_stack mid).get_module_options mid)
              (autoBackupDir ({ env with backup := g } : ModuleEnv σ).base_dir)])) := by
      funext acc mid
      show ((f mid _ _ acc.1).2, _) = ((g mid _ _ acc.1).2, _)
      rw [hstate]
    rw [hfun]
  unfold Switcher.load_into_stack
  rw [hauto]
  rfl

/-- Concrete instantiation for `load_ignores_auto_backup_outcome`: an
auto-backup oracle that always raises versus one that always succeeds, with
no state effect, give identical load outputs. -/
theorem load_ignores_auto_backup_outcome_witness :
    (∀ (mid : String) (o : ModOptions) (d : DirPath) (t : Unit),
      ((fun (_ : String) (_ : ModOptions) (_ : DirPath) (u : Unit) =>
          ((Except.error "boom" : Except String (Bool × String)), u)) mid o d t).2
        = ((fun (_ : String) (_ : ModOptions) (_ : DirPath) (u : Unit) =>
            ((Except.ok (true, "ok") : Except String (Bool × String)), u)) mid o d t).2)
    ∧ Switcher.load_into_stack
        { okEnv with backup := fun _ _ _ u => (Except.error "boom", u) }
        oneModProfile [] true ()
      = Switcher.load_into_stack
        { okEnv with backup := fun _ _ _ u => (Except.ok (true, "ok"), u) }
        oneModProfile [] true () :=
  ⟨fun _ _ _ _ => rfl,
   load_ignores_auto_backup_outcome okEnv
     (fun _ _ _ u => (Except.error "boom", u))
     (fun _ _ _ u => (Except.ok (true, "ok"), u))
     (fun _ _ _ _ => rfl) oneModProfile [] true ()⟩

/-! ### Trace structure of the orchestrator loops -/

/-- The module an event is about. -/
def eventMid : Event → String
  | Event.validateCall m _ _ => m
  | Event.restoreCall m _ _ => m
  | Event.backupCall m _ _ => m
  | Event.statusCall m => m
  | Event.reloadCall m => m
  | Event.revertCall m => m

/-- Modules for which a backup validation was invoked, in order. -/
def validateMids (evs : List Event) : List String :=
  evs.filterMap (fun e => match e with
    | Event.validateCall m _ _ => some m
    | _ => none)

/-- Modules for which a backup was invoked, in order. -/
def backupMids (evs : List Event) : List String :=
  evs.filterMap (fun e => match e with
    | Event.backupCall m _ _ => some m
    | _ => none)

/-- Modules visited by the unload loop: per iteration either a fallback
validation or the default-revert path. -/
def unloadVisited (evs : List Event) : List String :=
  evs.filterMap (fun e => match e with
    | Event.validateCall m _ _ => some m
    | Event.revertCall m => some m
    | _ => none)

theorem loadStep_evs_shape {σ : Type} (env : ModuleEnv σ) (inc : Profile)
    (dir : DirPath) (acc : OpAcc σ) (mid : String) :
    ∀ e ∈ (Switcher.loadStep env inc dir acc mid).evs,
      e ∈ acc.evs
      ∨ e = Event.validateCall mid (inc.get_module_options mid) dir
      ∨ e = Event.restoreCall mid (inc.get_module_options mid) dir
      ∨ e = Event.statusCall mid ∨ e = Event.reloadCall mid := by
  intro e he
  unfold Switcher.loadStep at he
  repeat' split at he
  all_goals (simp at he; tauto)

theorem loadStep_evs_mono {σ : Type} (env : ModuleEnv σ) (inc : Profile)
    (dir : DirPath) (acc : OpAcc σ) (mid : String) :
    ∀ e ∈ acc.evs, e ∈ (Switcher.loadStep env inc dir acc mid).evs := by
  intro e he
  unfold Switcher.loadStep
  repeat' split
  all_goals simp [he]

theorem loadStep_validateMids {σ : Type} (env : ModuleEnv σ) (inc : Profile)
    (dir : DirPath) (acc : OpAcc σ) (mid : String) :
    validateMids (Switcher.loadStep env inc dir acc mid).evs
      = validateMids acc.evs ++ [mid] := by
  unfold Switcher.loadStep
  repeat' split
  all_goals simp [validateMids]

theorem loadStep_results_shape {σ : Type} (env : ModuleEnv σ) (inc : Profile)
    (dir : DirPath) (acc : OpAcc σ) (mid : String) :
    ∀ m v, (m, v) ∈ (Switcher.loadStep env inc dir acc mid).res.module_results →
      (m, v) ∈ acc.res.module_results ∨ m = mid := by
  have hmem : ∀ (d : List (String × (Bool × String))) (k : String) (v1 : Bool × String)
      (m : String) (v : Bool × String),
      (m, v) ∈ dictSet d k v1 → (m, v) ∈ d ∨ m = k := by
    intro d k v1
    induction d with
    | nil => intro m v hm; simp [dictSet] at hm; simp [hm]
    | cons hd t ih =>
      intro m v hm
      obtain ⟨k2, v2⟩ := hd
      by_cases h : k2 = k
      · subst h
        simp [dictSet] at hm
        rcases hm with hm | hm
        · exact Or.inr hm.1
        · exact Or.inl (List.mem_cons_of_mem _ hm)
      · simp [dictSet, h] at hm
        rcases hm with hm | hm
        · simp [hm]
        · rcases ih m v hm with h1 | h1
          · exact Or.inl (List.mem_cons_of_mem _ h1)
          · exact Or.inr h1
  intro m v hm
  unfold Switcher.loadStep at hm
  repeat' split at hm
  all_goals exact hmem _ _ _ _ _ hm

theorem loadStep_sets_mid {σ : Type} (env : ModuleEnv σ) (inc : Profile)
    (dir : DirPath) (acc : OpAcc σ) (mid : String) :
    (dictGet? (Switcher.loadStep env inc dir acc mid).res.module_results mid).isSome := by
  unfold Switcher.loadStep
  repeat' split
  all_goals simp [dictGet?_dictSet]

theorem loadStep_results_isSome {σ : Type} (env : ModuleEnv σ) (inc : Profile)
    (dir : DirPath) (acc : OpAcc σ) (mid m : String)
    (h : (dictGet? acc.res.module_results m).isSome) :
    (dictGet? (Switcher.loadStep env inc dir acc mid).res.module_results m).isSome := by
  unfold Switcher.loadStep
  repeat' split
  all_goals (simp [dictGet?_dictSet]; by_cases hm : m = mid <;> simp [hm, h])

theorem backupStep_evs {σ : Type} (env : ModuleEnv σ) (p : Profile)
    (dest : DirPath) (acc : OpAcc σ) (mid : String) :
    (Switcher.backupStep env p dest acc mid).evs
      = acc.evs ++ [Event.backupCall mid (p.get_module_options mid) dest] := by
  unfold Switcher.backupStep
  repeat' split
  all_goals rfl

theorem backupStep_sets_mid {σ : Type} (env : ModuleEnv σ) (p : Profile)
    (dest : DirPath) (acc : OpAcc σ) (mid : String) :
    (dictGet? (Switcher.backupStep env p dest acc mid).res.module_results mid).isSome := by
  unfold Switcher.backupStep
  repeat' split
  all_goals simp [dictGet?_dictSet]

theorem backupStep_results_isSome {σ : Type} (env : ModuleEnv σ) (p : Profile)
    (dest : DirPath) (acc : OpAcc σ) (mid m : String)
    (h : (dictGet? acc.res.module_results m).isSome) :
    (dictGet? (Switcher.backupStep env p dest acc mid).res.module_results m).isSome := by
  unfold Switcher.backupStep
  repeat' split
  all_goals (simp [dictGet?_dictSet]; by_cases hm : m = mid <;> simp [hm, h])

theorem unloadStep_evs_shape_some {σ : Type} (env : ModuleEnv σ)
    (resolution : List (String × Profile)) (acc : OpAcc σ) (mid : String)
    (fb : Profile) (hfb : dictGet? resolution mid = some fb) :
    ∀ e ∈ (Switcher.unloadStep env resolution acc mid).evs,
      e ∈ acc.evs
      ∨ e = Event.validateCall mid (fb.get_module_options mid) (profileDir env.base_dir fb.name)
      ∨ e = Event.restoreCall mid (fb.get_module_options mid) (profileDir env.base_dir fb.name) := by
  intro e he
  unfold Switcher.unloadStep at he
  rw [hfb] at he
  dsimp only at he
  repeat' split at he
  all_goals (simp at he; tauto)

theorem unloadStep_evs_none {σ : Type} (env : ModuleEnv σ)
    (resolution : List (String × Profile)) (acc : OpAcc σ) (mid : String)
    (hfb : dictGet? resolution mid = none) :
    (Switcher.unloadStep env resolution acc mid).evs = acc.evs ++ [Event.revertCall mid] := by
  unfold Switcher.unloadStep Switcher.revert_module_to_default
  rw [hfb]
  dsimp only
  repeat' split
  all_goals rfl

theorem unloadStep_evs_shape {σ : Type} (env : ModuleEnv σ)
    (resolution : List (String × Profile)) (acc : OpAcc σ) (mid : String) :
    ∀ e ∈ (Switcher.unloadStep env resolution acc mid).evs,
      e ∈ acc.evs ∨ eventMid e = mid := by
  intro e he
  cases hfb : dictGet? resolution mid with
  | some fb =>
    rcases unloadStep_evs_shape_some env resolution acc mid fb hfb e he with h | h | h
    · exact Or.inl h
    · subst h; exact Or.inr rfl
    · subst h; exact Or.inr rfl
  | none =>
    rw [unloadStep_evs_none env resolution acc mid hfb] at he
    rcases List.mem_append.mp he with h | h
    · exact Or.inl h
    · simp at h; subst h; exact Or.inr rfl

theorem unloadStep_evs_mono {σ : Type} (env : ModuleEnv σ)
    (resolution : List (String × Profile)) (acc : OpAcc σ) (mid : String) :
    ∀ e ∈ acc.evs, e ∈ (Switcher.unloadStep env resolution acc mid).evs := by
  intro e he
  unfold Switcher.unloadStep Switcher.revert_module_to_default
  repeat' split
  all_goals simp [he]

theorem unloadStep_validate_mem {σ : Type} (env : ModuleEnv σ)
    (resolution : List (String × Profile)) (acc : OpAcc σ) (mid : String)
    (fb : Profile) (hfb : dictGet? resolution mid = some fb) :
    Event.validateCall mid (fb.get_module_options mid) (profileDir env.base_dir fb.name)
      ∈ (Switcher.unloadStep env resolution acc mid).evs := by
  unfold Switcher.unloadStep
  rw [hfb]
  dsimp only
  repeat' split
  all_goals simp

theorem unloadStep_visited {σ : Type} (env : ModuleEnv σ)
    (resolution : List (String × Profile)) (acc : OpAcc σ) (mid : String) :
    unloadVisited (Switcher.unloadStep env resolution acc mid).evs
      = unloadVisited acc.evs ++ [mid] := by
  unfold Switcher.unloadStep Switcher.revert_module_to_default
  repeat' split
  all_goals simp [unloadVisited]

theorem unloadStep_warnings_mono {σ : Type} (env : ModuleEnv σ)
    (resolution : List (String × Profile)) (acc : OpAcc σ) (mid : String) :
    ∀ w ∈ acc.res.warnings, w ∈ (Switcher.unloadStep env resolution acc mid).res.warnings := by
  intro w hw
  unfold Switcher.unloadStep Switcher.revert_module_to_default
  repeat' split
  all_goals simp [hw]

theorem unloadStep_validate_true_restores {σ : Type} (env : ModuleEnv σ)
    (resolution : List (String × Profile)) (acc : OpAcc σ) (mid : String)
    (fb : Profile) (hfb : dictGet? resolution mid = some fb)
    (hv : ∀ t, ∃ m, env.validate_backup mid (fb.get_module_options mid)
            (profileDir env.base_dir fb.name) t = Except.ok (true, m)) :
    Event.restoreCall mid (fb.get_module_options mid) (profileDir env.base_dir fb.name)
      ∈ (Switcher.unloadStep env resolution acc mid).evs := by
  obtain ⟨m, hm⟩ := hv acc.st
  unfold Switcher.unloadStep
  rw [hfb]
  dsimp only
  rw [hm]
  dsimp only
  repeat' split
  all_goals simp

theorem unloadStep_validate_false_warns {σ : Type} (env : ModuleEnv σ)
    (resolution : List (String × Profile)) (acc : OpAcc σ) (mid : String)
    (fb : Profile) (hfb : dictGet? resolution mid = some fb)
    (hv : ∀ t, ∃ m, env.validate_backup mid (fb.get_module_options mid)
            (profileDir env.base_dir fb.name) t = Except.ok (false, m)) :
    (∀ e ∈ (Switcher.unloadStep env resolution acc mid).evs,
       e ∈ acc.evs
       ∨ e = Event.validateCall mid (fb.get_module_options mid) (profileDir env.base_dir fb.name))
    ∧ ∃ m, (env.display_name mid ++ ": fallback '" ++ fb.name ++ "' has no backup — " ++ m)
        ∈ (Switcher.unloadStep env resolution acc mid).res.warnings := by
  obtain ⟨m, hm⟩ := hv acc.st
  unfold Switcher.unloadStep
  rw [hfb]
  dsimp only
  rw [hm]
  dsimp only
  constructor
  · intro e he
    simp at he
    tauto
  · exact ⟨m, by simp⟩

/-- The auto-backup phase emits exactly one backup call per touched module,
with the current owner's options, into the reserved auto-backup slot. -/
theorem auto_backup_evs {σ : Type} (env : ModuleEnv σ) (incoming : Profile)
    (current_stack : List Profile) (s : σ) :
    (Switcher.auto_backup_affected env incoming current_stack s).2
      = incoming.enabled_modules.map
          (fun mid => Event.backupCall mid
            ((autoOwner incoming current_stack mid).get_module_options mid)
            (autoBackupDir env.base_dir)) := by
  unfold Switcher.auto_backup_affected
  have aux : ∀ (l : List String) (p : σ × List Event),
      (l.foldl
        (fun (acc : σ × List Event) mid =>
          ((env.backup mid ((autoOwner incoming current_stack mid).get_module_options mid)
              (autoBackupDir env.base_dir) acc.1).2,
           acc.2 ++ [Event.backupCall mid
              ((autoOwner incoming current_stack mid).get_module_options mid)
              (autoBackupDir env.base_dir)]))
        p).2
      = p.2 ++ l.map (fun mid => Event.backupCall mid
          ((autoOwner incoming current_stack mid).get_module_options mid)
          (autoBackupDir env.base_dir)) := by
    intro l
    induction l with
    | nil => intro p; simp
    | cons a t ih => intro p; simp [ih]
  simpa using aux incoming.enabled_modules _

theorem load_into_stack_evs_eq {σ : Type} (env : ModuleEnv σ) (incoming : Profile)
    (current_stack : List Profile) (ab : Bool) (s : σ) :
    (Switcher.load_into_stack env incoming current_stack ab s).2.2
      = (incoming.enabled_modules.foldl
          (Switcher.loadStep env incoming (profileDir env.base_dir incoming.name))
          { res := { success := true, module_results := [], errors := [], warnings := [] }
            st := (if ab then Switcher.auto_backup_affected env incoming current_stack s
                   else (s, [])).1
            evs := (if ab then Switcher.auto_backup_affected env incoming current_stack s
                    else (s, [])).2 }).evs := by
  unfold Switcher.load_into_stack Switcher.loadFinish
  split <;> (split <;> rfl)

theorem unload_from_stack_evs_eq {σ : Type} (env : ModuleEnv σ) (profile : Profile)
    (remaining_stack : List Profile) (s : σ) :
    (Switcher.unload_from_stack env profile remaining_stack s).2.2
      = (profile.enabled_modules.foldl
          (Switcher.unloadStep env (Switcher.resolve_stack remaining_stack))
          { res := { success := true, module_results := [], errors := [], warnings := [] }
            st := s, evs := [] }).evs := rfl

theorem unload_from_stack_res_eq {σ : Type} (env : ModuleEnv σ) (profile : Profile)
    (remaining_stack : List Profile) (s : σ) :
    (Switcher.unload_from_stack env profile remaining_stack s).1
      = (profile.enabled_modules.foldl
          (Switcher.unloadStep env (Switcher.resolve_stack remaining_stack))
          { res := { success := true, module_results := [], errors := [], warnings := [] }
            st := s, evs := [] }).res := rfl

theorem backup_to_profile_evs_eq {σ : Type} (env : ModuleEnv σ) (profile : Profile) (s : σ) :
    (Switcher.backup_to_profile env profile s).2.2
      = (profile.enabled_modules.foldl
          (Switcher.backupStep env profile (profileDir env.base_dir profile.name))
          { res := { success := true, module_results := [], errors := [], warnings := [] }
            st := s, evs := [] }).evs := rfl

theorem backup_to_profile_res_eq {σ : Type} (env : ModuleEnv σ) (profile : Profile) (s : σ) :
    (Switcher.backup_to_profile env profile s).1
      = (profile.enabled_modules.foldl
          (Switcher.backupStep env profile (profileDir env.base_dir profile.name))
          { res := { success := true, module_results := [], errors := [], warnings := [] }
            st := s, evs := [] }).res := rfl

theorem validateMids_foldl_loadStep {σ : Type} (env : ModuleEnv σ) (inc : Profile)
    (dir : DirPath) :
    ∀ (l : List String) (acc : OpAcc σ),
      validateMids (l.foldl (Switcher.loadStep env inc dir) acc).evs
        = validateMids acc.evs ++ l := by
  intro l
  induction l with
  | nil => intro acc; simp
  | cons a t ih =>
    intro acc
    rw [List.foldl_cons, ih, loadStep_validateMids]
    simp

theorem unloadVisited_foldl {σ : Type} (env : ModuleEnv σ)
    (resolution : List (String × Profile)) :
    ∀ (l : List String) (acc : OpAcc σ),
      unloadVisited (l.foldl (Switcher.unloadStep env resolution) acc).evs
        = unloadVisited acc.evs ++ l := by
  intro l
  induction l with
  | nil => intro acc; simp
  | cons a t ih =>
    intro acc
    rw [List.foldl_cons, ih, unloadStep_visited]
    simp

theorem backupMids_foldl {σ : Type} (env : ModuleEnv σ) (p : Profile) (dest : DirPath) :
    ∀ (l : List String) (acc : OpAcc σ),
      backupMids (l.foldl (Switcher.backupStep env p dest) acc).evs
        = backupMids acc.evs ++ l := by
  intro l
  induction l with
  | nil => intro acc; simp
  | cons a t ih =>
    intro acc
    rw [List.foldl_cons, ih, backupStep_evs]
    simp [backupMids]

theorem validateMids_auto_evs {σ : Type} (env : ModuleEnv σ) (incoming : Profile)
    (current_stack : List Profile) (s : σ) :
    validateMids (Switcher.auto_backup_affected env incoming current_stack s).2 = [] := by
  rw [auto_backup_evs]
  simp [validateMids, List.filterMap_map]

/-- Claim C7: none of the three operations aborts early or escapes with an
exception, whatever the per-module oracles do (including raising): the load
restore loop validates every module `incoming` enables, in order; the unload
loop visits (fallback-validates or default-reverts) every module the profile
enables; the backup loop invokes backup for every enabled module; and for
load and backup every enabled module also ends up with a labelled entry in
`module_results`.  Totality (an `OperationResult` is always returned) is
structural in the embedding, mirroring the per-iteration try/except in the
source. -/
theorem no_early_abort {σ : Type} (env : ModuleEnv σ)
    (incoming profile qprofile : Profile)
    (current_stack remaining_stack : List Profile) (ab : Bool) (s1 s2 s3 : σ) :
    validateMids (Switcher.load_into_stack env incoming current_stack ab s1).2.2
      = incoming.enabled_modules
    ∧ (∀ mid ∈ incoming.enabled_modules,
        (dictGet? (Switcher.load_into_stack env incoming current_stack ab s1).1.module_results
            mid).isSome)
    ∧ unloadVisited (Switcher.unload_from_stack env profile remaining_stack s2).2.2
      = profile.enabled_modules
    ∧ backupMids (Switcher.backup_to_profile env qprofile s3).2.2
      = qprofile.enabled_modules
    ∧ (∀ mid ∈ qprofile.enabled_modules,
        (dictGet? (Switcher.backup_to_profile env qprofile s3).1.module_results mid).isSome) := by
  refine ⟨?_, ?_, ?_, ?_, ?_⟩
  · rw [load_into_stack_evs_eq, validateMids_foldl_loadStep]
    cases ab
    · simp [validateMids]
    · simp [validateMids_auto_evs]
  · intro mid hmid
    rw [load_into_stack_res_eq]
    exact foldl_reach _ (fun (acc : OpAcc σ) => (dictGet? acc.res.module_results mid).isSome)
      mid (fun b a hb => loadStep_results_isSome env incoming _ b a mid hb)
      (fun b => loadStep_sets_mid env incoming _ b mid)
      incoming.enabled_modules _ hmid
  · rw [unload_from_stack_evs_eq, unloadVisited_foldl]
    simp [unloadVisited]
  · rw [backup_to_profile_evs_eq, backupMids_foldl]
    simp [backupMids]
  · intro mid hmid
    rw [backup_to_profile_res_eq]
    exact foldl_reach _ (fun (acc : OpAcc σ) => (dictGet? acc.res.module_results mid).isSome)
      mid (fun b a hb => backupStep_results_isSome env qprofile _ b a mid hb)
      (fun b => backupStep_sets_mid env qprofile _ b mid)
      qprofile.enabled_modules _ hmid

/-- Claim C5: `load_into_stack` only ever restores — and, with auto-backup
on, only ever auto-backs-up — modules in the incoming profile's enabled
set, and every per-module result entry is for an enabled module; modules
owned by other stack members but not enabled by `incoming` are never
touched.  (`current_stack` is only read: the embedding is a pure function
of it, mirroring the source, which never mutates the list.) -/
theorem load_frame {σ : Type} (env : ModuleEnv σ) (incoming : Profile)
    (current_stack : List Profile) (ab : Bool) (s : σ) :
    (∀ m o d, Event.restoreCall m o d
        ∈ (Switcher.load_into_stack env incoming current_stack ab s).2.2 →
        m ∈ incoming.enabled_modules)
    ∧ (∀ m o d, Event.backupCall m o d
        ∈ (Switcher.load_into_stack env incoming current_stack ab s).2.2 →
        m ∈ incoming.enabled_modules)
    ∧ (∀ m v, (m, v)
        ∈ (Switcher.load_into_stack env incoming current_stack ab s).1.module_results →
        m ∈ incoming.enabled_modules) := by
  have key : (∀ m o d, Event.restoreCall m o d
        ∈ (Switcher.load_into_stack env incoming current_stack ab s).2.2 →
        m ∈ incoming.enabled_modules)
      ∧ (∀ m o d, Event.backupCall m o d
        ∈ (Switcher.load_into_stack env incoming current_stack ab s).2.2 →
        m ∈ incoming.enabled_modules)
      ∧ (∀ m v, (m, v)
        ∈ (Switcher.load_into_stack env incoming current_stack ab s).1.module_results →
        m ∈ incoming.enabled_modules) := by
    rw [load_into_stack_evs_eq, load_into_stack_res_eq]
    have h := foldl_preserve_of_mem
      (Switcher.loadStep env incoming (profileDir env.base_dir incoming.name))
      (fun (acc : OpAcc σ) =>
        (∀ m o d, Event.restoreCall m o d ∈ acc.evs → m ∈ incoming.enabled_modules)
        ∧ (∀ m o d, Event.backupCall m o d ∈ acc.evs → m ∈ incoming.enabled_modules)
        ∧ (∀ m v, (m, v) ∈ acc.res.module_results → m ∈ incoming.enabled_modules))
      incoming.enabled_modules
      (fun b a ha hb => by
        refine ⟨?_, ?_, ?_⟩
        · intro m o d hm
          rcases loadStep_evs_shape env incoming _ b a _ hm with h1 | h1 | h1 | h1 | h1
          · exact hb.1 m o d h1
          all_goals (first
            | (injection h1; rename_i hm1 _ _; rw [hm1]; exact ha)
            | cases h1)
        · intro m o d hm
          rcases loadStep_evs_shape env incoming _ b a _ hm with h1 | h1 | h1 | h1 | h1
          · exact hb.2.1 m o d h1
          all_goals cases h1
        · intro m v hm
          rcases loadStep_results_shape env incoming _ b a m v hm with h1 | h1
          · exact hb.2.2 m v h1
          · rw [h1]; exact ha)
    refine h _ ⟨?_, ?_, ?_⟩
    · intro m o d hm
      by_cases hab : ab = true
      · rw [if_pos hab, auto_backup_evs] at hm
        rcases List.mem_map.mp hm with ⟨mid1, _, heq⟩
        cases heq
      · rw [if_neg hab] at hm
        simp at hm
    · intro m o d hm
      by_cases hab : ab = true
      · rw [if_pos hab, auto_backup_evs] at hm
        rcases List.mem_map.mp hm with ⟨mid1, hmid1, heq⟩
        injection heq with h1 h2 h3
        exact h1 ▸ hmid1
      · rw [if_neg hab] at hm
        simp at hm
    · intro m v hm
      simp at hm
  exact key

theorem load_into_stack_true_evs {σ : Type} (env : ModuleEnv σ) (incoming : Profile)
    (current_stack : List Profile) (s : σ) :
    (Switcher.load_into_stack env incoming current_stack true s).2.2
      = (incoming.enabled_modules.foldl
          (Switcher.loadStep env incoming (profileDir env.base_dir incoming.name))
          { res := { success := true, module_results := [], errors := [], warnings := [] }
            st := (Switcher.auto_backup_affected env incoming current_stack s).1
            evs := (Switcher.auto_backup_affected env incoming current_stack s).2 }).evs := by
  rw [load_into_stack_evs_eq]
  rfl

/-- Claim C4: with `auto_backup_first` set, the auto-backup snapshot of every
module the incoming profile enables is taken with the options of the profile
that owns that module under resolution of the stack *before* the incoming
profile is added (`autoOwner`, which falls back to the incoming profile
itself exactly when no current stack member owns the module); no auto-backup
call ever uses different options or a different destination. -/
theorem auto_backup_owner_options {σ : Type} (env : ModuleEnv σ) (incoming : Profile)
    (current_stack : List Profile) (s : σ) (mid : String)
    (hmid : mid ∈ incoming.enabled_modules) :
    Event.backupCall mid ((autoOwner incoming current_stack mid).get_module_options mid)
        (autoBackupDir env.base_dir)
      ∈ (Switcher.load_into_stack env incoming current_stack true s).2.2
    ∧ (∀ o d, Event.backupCall mid o d
          ∈ (Switcher.load_into_stack env incoming current_stack true s).2.2 →
        o = (autoOwner incoming current_stack mid).get_module_options mid
        ∧ d = autoBackupDir env.base_dir) := by
  rw [load_into_stack_true_evs]
  constructor
  · exact foldl_preserve _
      (fun (acc : OpAcc σ) =>
        Event.backupCall mid ((autoOwner incoming current_stack mid).get_module_options mid)
          (autoBackupDir env.base_dir) ∈ acc.evs)
      (fun b a hb => loadStep_evs_mono env incoming _ b a _ hb)
      incoming.enabled_modules _
      (by
        show Event.backupCall mid ((autoOwner incoming current_stack mid).get_module_options mid)
            (autoBackupDir env.base_dir)
          ∈ (Switcher.auto_backup_affected env incoming current_stack s).2
        rw [auto_backup_evs]
        exact List.mem_map.mpr ⟨mid, hmid, rfl⟩)
  · intro o d
    exact foldl_preserve _
      (fun (acc : OpAcc σ) =>
        Event.backupCall mid o d ∈ acc.evs →
          o = (autoOwner incoming current_stack mid).get_module_options mid
          ∧ d = autoBackupDir env.base_dir)
      (fun b a hb hin => by
        rcases loadStep_evs_shape env incoming _ b a _ hin with h1 | h1 | h1 | h1 | h1
        · exact hb h1
        all_goals cases h1)
      incoming.enabled_modules _
      (by
        intro hin
        have hin2 : Event.backupCall mid o d
            ∈ (Switcher.auto_backup_affected env incoming current_stack s).2 := hin
        rw [auto_backup_evs] at hin2
        rcases List.mem_map.mp hin2 with ⟨mid1, _, heq⟩
        injection heq with h1 h2 h3
        subst h1
        exact ⟨h2.symm, h3.symm⟩)

/-- Profile "A" enabling module `x` with its own options. -/
def profA : Profile :=
  { name := "A", modules := [("x", { enabled := true, options := [("drv", "a")] })] }

/-- Profile "B" enabling module `x` with different options. -/
def profB : Profile :=
  { name := "B", modules := [("x", { enabled := true, options := [("drv", "b")] })] }

/-- Concrete instantiation for `auto_backup_owner_options`: loading B on top
of stack [A] auto-backs module `x` up with A's options (A is the current
owner), not B's. -/
theorem auto_backup_owner_options_witness :
    ("x" ∈ profB.enabled_modules)
    ∧ (Event.backupCall "x" ((autoOwner profB [profA] "x").get_module_options "x")
          (autoBackupDir okEnv.base_dir)
        ∈ (Switcher.load_into_stack okEnv profB [profA] true ()).2.2
      ∧ (∀ o d, Event.backupCall "x" o d
            ∈ (Switcher.load_into_stack okEnv profB [profA] true ()).2.2 →
          o = (autoOwner profB [profA] "x").get_module_options "x"
          ∧ d = autoBackupDir okEnv.base_dir)) :=
  ⟨by decide, auto_backup_owner_options okEnv profB [profA] () "x" (by decide)⟩

/-- Claim C3: for every module the unloaded profile enables — if the
resolution of the remaining stack yields a fallback owner, the unload loop
validates that owner's backup (with the owner's options, from the owner's
profile directory), restores from it exactly when validation succeeds (any
restore call for the module uses precisely the fallback's options and
directory), never takes the default-revert path, and a missing fallback
backup yields only a warning (the unload errors list is always empty); if no
remaining stack member covers the module, the default-revert path is taken
and no restore call is made for it. -/
theorem unload_fallback_behavior {σ : Type} (env : ModuleEnv σ) (profile : Profile)
    (remaining_stack : List Profile) (s : σ) (mid : String)
    (hmid : mid ∈ profile.enabled_modules) :
    (∀ fb, dictGet? (Switcher.resolve_stack remaining_stack) mid = some fb →
       Event.validateCall mid (fb.get_module_options mid) (profileDir env.base_dir fb.name)
         ∈ (Switcher.unload_from_stack env profile remaining_stack s).2.2
       ∧ (∀ o d, Event.restoreCall mid o d
             ∈ (Switcher.unload_from_stack env profile remaining_stack s).2.2 →
           o = fb.get_module_options mid ∧ d = profileDir env.base_dir fb.name)
       ∧ Event.revertCall mid ∉ (Switcher.unload_from_stack env profile remaining_stack s).2.2
       ∧ ((∀ t, ∃ m, env.validate_backup mid (fb.get_module_options mid)
              (profileDir env.base_dir fb.name) t = Except.ok (true, m)) →
            Event.restoreCall mid (fb.get_module_options mid) (profileDir env.base_dir fb.name)
              ∈ (Switcher.unload_from_stack env profile remaining_stack s).2.2)
       ∧ ((∀ t, ∃ m, env.validate_backup mid (fb.get_module_options mid)
              (profileDir env.base_dir fb.name) t = Except.ok (false, m)) →
            (∀ o d, Event.restoreCall mid o d
                ∉ (Switcher.unload_from_stack env profile remaining_stack s).2.2)
            ∧ (∃ m, (env.display_name mid ++ ": fallback '" ++ fb.name
                      ++ "' has no backup — " ++ m)
                 ∈ (Switcher.unload_from_stack env profile remaining_stack s).1.warnings)))
    ∧ (dictGet? (Switcher.resolve_stack remaining_stack) mid = none →
        Event.revertCall mid ∈ (Switcher.unload_from_stack env profile remaining_stack s).2.2
        ∧ (∀ o d, Event.restoreCall mid o d
             ∉ (Switcher.unload_from_stack env profile remaining_stack s).2.2))
    ∧ (Switcher.unload_from_stack env profile remaining_stack s).1.errors = [] := by
  refine ⟨?_, ?_, (unload_success_and_errors env profile remaining_stack s).2⟩
  · intro fb hfb
    refine ⟨?_, ?_, ?_, ?_, ?_⟩
    · rw [unload_from_stack_evs_eq]
      exact foldl_reach _
        (fun (acc : OpAcc σ) =>
          Event.validateCall mid (fb.get_module_options mid)
            (profileDir env.base_dir fb.name) ∈ acc.evs)
        mid
        (fun b a hb => unloadStep_evs_mono env _ b a _ hb)
        (fun b => unloadStep_validate_mem env _ b mid fb hfb)
        profile.enabled_modules _ hmid
    · intro o d
      rw [unload_from_stack_evs_eq]
      exact foldl_preserve _
        (fun (acc : OpAcc σ) =>
          Event.restoreCall mid o d ∈ acc.evs →
            o = fb.get_module_options mid ∧ d = profileDir env.base_dir fb.name)
        (fun b a hb hin => by
          by_cases ha : a = mid
          · subst ha
            rcases unloadStep_evs_shape_some env _ b a fb hfb _ hin with h1 | h1 | h1
            · exact hb h1
            · cases h1
            · injection h1 with e1 e2 e3
              exact ⟨e2, e3⟩
          · rcases unloadStep_evs_shape env _ b a _ hin with h1 | h1
            · exact hb h1
            · exact absurd h1 (by simp [eventMid, ha]; intro hc; exact absurd hc.symm ha))
        profile.enabled_modules _ (by intro hin; simp at hin)
    · rw [unload_from_stack_evs_eq]
      exact foldl_preserve _
        (fun (acc : OpAcc σ) => Event.revertCall mid ∉ acc.evs)
        (fun b a hb hin => by
          by_cases ha : a = mid
          · subst ha
            rcases unloadStep_evs_shape_some env _ b a fb hfb _ hin with h1 | h1 | h1
            · exact hb h1
            · cases h1
            · cases h1
          · rcases unloadStep_evs_shape env _ b a _ hin with h1 | h1
            · exact hb h1
            · simp [eventMid] at h1; exact ha h1.symm)
        profile.enabled_modules _ (by intro hin; simp at hin)
    · intro hv
      rw [unload_from_stack_evs_eq]
      exact foldl_reach _
        (fun (acc : OpAcc σ) =>
          Event.restoreCall mid (fb.get_module_options mid)
            (profileDir env.base_dir fb.name) ∈ acc.evs)
        mid
        (fun b a hb => unloadStep_evs_mono env _ b a _ hb)
        (fun b => unloadStep_validate_true_restores env _ b mid fb hfb hv)
        profile.enabled_modules _ hmid
    · intro hv
      constructor
      · intro o d
        rw [unload_from_stack_evs_eq]
        exact foldl_preserve _
          (fun (acc : OpAcc σ) => Event.restoreCall mid o d ∉ acc.evs)
          (fun b a hb hin => by
            by_cases ha : a = mid
            · subst ha
              rcases (unloadStep_validate_false_warns env _ b a fb hfb hv).1 _ hin with h1 | h1
              · exact hb h1
              · cases h1
            · rcases unloadStep_evs_shape env _ b a _ hin with h1 | h1
              · exact hb h1
              · simp [eventMid] at h1; exact ha h1.symm)
          profile.enabled_modules _ (by intro hin; simp at hin)
      · rw [unload_from_stack_res_eq]
        exact foldl_reach _
          (fun (acc : OpAcc σ) =>
            ∃ m, (env.display_name mid ++ ": fallback '" ++ fb.name
                   ++ "' has no backup — " ++ m) ∈ acc.res.warnings)
          mid
          (fun b a hb => by
            obtain ⟨m, hm⟩ := hb
            exact ⟨m, unloadStep_warnings_mono env _ b a _ hm⟩)
          (fun b => (unloadStep_validate_false_warns env _ b mid fb hfb hv).2)
          profile.enabled_modules _ hmid
  · intro hfb
    constructor
    · rw [unload_from_stack_evs_eq]
      exact foldl_reach _
        (fun (acc : OpAcc σ) => Event.revertCall mid ∈ acc.evs)
        mid
        (fun b a hb => unloadStep_evs_mono env _ b a _ hb)
        (fun b => by
          show Event.revertCall mid
            ∈ (Switcher.unloadStep env (Switcher.resolve_stack remaining_stack) b mid).evs
          rw [unloadStep_evs_none env _ b mid hfb]
          simp)
        profile.enabled_modules _ hmid
    · intro o d
      rw [unload_from_stack_evs_eq]
      exact foldl_preserve _
        (fun (acc : OpAcc σ) => Event.restoreCall mid o d ∉ acc.evs)
        (fun b a hb hin => by
          by_cases ha : a = mid
          · subst ha
            rw [unloadStep_evs_none env _ b a hfb] at hin
            rcases List.mem_append.mp hin with h1 | h1
            · exact hb h1
            · simp at h1
          · rcases unloadStep_evs_shape env _ b a _ hin with h1 | h1
            · exact hb h1
            · simp [eventMid] at h1; exact ha h1.symm)
        profile.enabled_modules _ (by intro hin; simp at hin)

/-- Concrete instantiation for `unload_fallback_behavior`: unloading `B`
from stack `[A, B]` (remaining `[A]`) with module `x` covered by `A`. -/
theorem unload_fallback_behavior_witness :
    ("x" ∈ profB.enabled_modules)
    ∧ ((∀ fb, dictGet? (Switcher.resolve_stack [profA]) "x" = some fb →
         Event.validateCall "x" (fb.get_module_options "x") (profileDir okEnv.base_dir fb.name)
           ∈ (Switcher.unload_from_stack okEnv profB [profA] ()).2.2
         ∧ (∀ o d, Event.restoreCall "x" o d
               ∈ (Switcher.unload_from_stack okEnv profB [profA] ()).2.2 →
             o = fb.get_module_options "x" ∧ d = profileDir okEnv.base_dir fb.name)
         ∧ Event.revertCall "x" ∉ (Switcher.unload_from_stack okEnv profB [profA] ()).2.2
         ∧ ((∀ t, ∃ m, okEnv.validate_backup "x" (fb.get_module_options "x")
                (profileDir okEnv.base_dir fb.name) t = Except.ok (true, m)) →
              Event.restoreCall "x" (fb.get_module_options "x") (profileDir okEnv.base_dir fb.name)
                ∈ (Switcher.unload_from_stack okEnv profB [profA] ()).2.2)
         ∧ ((∀ t, ∃ m, okEnv.validate_backup "x" (fb.get_module_options "x")
                (profileDir okEnv.base_dir fb.name) t = Except.ok (false, m)) →
              (∀ o d, Event.restoreCall "x" o d
                  ∉ (Switcher.unload_from_stack okEnv profB [profA] ()).2.2)
              ∧ (∃ m, (okEnv.display_name "x" ++ ": fallback '" ++ fb.name
                        ++ "' has no backup — " ++ m)
                   ∈ (Switcher.unload_from_stack okEnv profB [profA] ()).1.warnings)))
      ∧ (dictGet? (Switcher.resolve_stack [profA]) "x" = none →
          Event.revertCall "x" ∈ (Switcher.unload_from_stack okEnv profB [profA] ()).2.2
          ∧ (∀ o d, Event.restoreCall "x" o d
               ∉ (Switcher.unload_from_stack okEnv profB [profA] ()).2.2))
      ∧ (Switcher.unload_from_stack okEnv profB [profA] ()).1.errors = []) :=
  ⟨by decide, unload_fallback_behavior okEnv profB [profA] () "x" (by decide)⟩

/-! ### Stack-conflict counting (claim C6) -/

theorem Profile.enabled_nodup (p : Profile) (h : p.wf) : p.enabled_modules.Nodup := by
  unfold Profile.enabled_modules
  unfold Profile.wf at h
  have hs : (p.modules.filter (fun kv => kv.2.enabled)).Sublist p.modules :=
    List.filter_sublist _
  have hs2 := hs.map (fun kv : String × ModuleCfg => kv.1)
  exact List.Nodup.sublist hs2 h

theorem check_stack_conflicts_mem (displayOf : String → String) (incoming : Profile)
    (stack : List Profile) :
    ∀ c ∈ Switcher.check_stack_conflicts displayOf incoming stack,
      c.active_profile ∈ stack.map Profile.name ∧ c.active_profile ≠ incoming.name := by
  intro c hc
  unfold Switcher.check_stack_conflicts at hc
  rcases List.mem_flatMap.mp hc with ⟨active, hmem, hc2⟩
  rcases List.mem_map.mp hc2 with ⟨mid, hmid, hcq⟩
  rcases List.mem_filter.mp hmem with ⟨hstk, hname⟩
  subst hcq
  refine ⟨List.mem_map.mpr ⟨active, hstk, rfl⟩, ?_⟩
  simpa using hname

theorem count_conflict_block (displayOf : String → String) (incoming active : Profile)
    (mid : String) (hwf : active.wf) :
    (((active.enabled_modules).filter
        (fun m => (incoming.enabled_modules).elem m)).map
      (fun m => ({ module_id := m, display_name := displayOf m,
                   incoming_profile := incoming.name,
                   active_profile := active.name } : StackConflict))).count
      { module_id := mid, display_name := displayOf mid,
        incoming_profile := incoming.name, active_profile := active.name }
    = if mid ∈ active.enabled_modules ∧ mid ∈ incoming.enabled_modules then 1 else 0 := by
  have hinj : Function.Injective
      (fun m => ({ module_id := m, display_name := displayOf m,
                   incoming_profile := incoming.name,
                   active_profile := active.name } : StackConflict)) := by
    intro a b hab
    exact congrArg StackConflict.module_id hab
  have hc := List.count_map_of_injective
    ((active.enabled_modules).filter (fun m => (incoming.enabled_modules).elem m))
    _ hinj mid
  rw [hc]
  have hnodup : ((active.enabled_modules).filter
      (fun m => (incoming.enabled_modules).elem m)).Nodup :=
    (Profile.enabled_nodup active hwf).filter _
  by_cases hm : mid ∈ active.enabled_modules ∧ mid ∈ incoming.enabled_modules
  · rw [if_pos hm]
    exact List.count_eq_one_of_mem hnodup
      (List.mem_filter.mpr ⟨hm.1, by simpa [List.elem_iff] using hm.2⟩)
  · rw [if_neg hm]
    refine List.count_eq_zero_of_not_mem ?_
    intro hmem
    rcases List.mem_filter.mp hmem with ⟨h1, h2⟩
    exact hm ⟨h1, by simpa [List.elem_iff] using h2⟩

theorem check_count_aux (displayOf : String → String) (incoming : Profile) :
    ∀ (stack : List Profile), (stack.map Profile.name).Nodup →
      ∀ active, active ∈ stack → active.wf → ∀ mid,
        (Switcher.check_stack_conflicts displayOf incoming stack).count
            { module_id := mid, display_name := displayOf mid,
              incoming_profile := incoming.name, active_profile := active.name }
          = if active.name ≠ incoming.name
              ∧ mid ∈ active.enabled_modules ∧ mid ∈ incoming.enabled_modules
            then 1 else 0 := by
  intro stack
  induction stack with
  | nil =>
    intro _ active hact
    simp at hact
  | cons p t ih =>
    intro hnames active hact hwf mid
    have hph : p.name ∉ t.map Profile.name := by
      rw [List.map_cons] at hnames
      exact (List.nodup_cons.mp hnames).1
    have hnt : (t.map Profile.name).Nodup := by
      rw [List.map_cons] at hnames
      exact (List.nodup_cons.mp hnames).2
    by_cases hp : (!(p.name == incoming.name)) = true
    · have hstep : Switcher.check_stack_conflicts displayOf incoming (p :: t)
          = ((p.enabled_modules).filter
              (fun m => (incoming.enabled_modules).elem m)).map
            (fun m => ({ module_id := m, display_name := displayOf m,
                         incoming_profile := incoming.name,
                         active_profile := p.name } : StackConflict))
            ++ Switcher.check_stack_conflicts displayOf incoming t := by
        unfold Switcher.check_stack_conflicts
        rw [List.filter_cons, if_pos hp, List.flatMap_cons]
      rw [hstep, List.count_append]
      rcases List.mem_cons.mp hact with hap | hat
      · subst hap
        have hzero : (Switcher.check_stack_conflicts displayOf incoming t).count
            { module_id := mid, display_name := displayOf mid,
              incoming_profile := incoming.name, active_profile := active.name } = 0 := by
          refine List.count_eq_zero_of_not_mem ?_
          intro hmem
          exact hph (check_stack_conflicts_mem displayOf incoming t _ hmem).1
        rw [hzero, count_conflict_block displayOf incoming active mid hwf]
        have hne : active.name ≠ incoming.name := by simpa using hp
        by_cases hm : mid ∈ active.enabled_modules ∧ mid ∈ incoming.enabled_modules
        · rw [if_pos hm, if_pos ⟨hne, hm⟩]
        · rw [if_neg hm, if_neg (fun hall => hm hall.2)]
      · have hpa : p.name ≠ active.name := by
          intro he
          exact hph (he ▸ List.mem_map.mpr ⟨active, hat, rfl⟩)
        have hzero : (((p.enabled_modules).filter
            (fun m => (incoming.enabled_modules).elem m)).map
            (fun m => ({ module_id := m, display_name := displayOf m,
                         incoming_profile := incoming.name,
                         active_profile := p.name } : StackConflict))).count
            { module_id := mid, display_name := displayOf mid,
              incoming_profile := incoming.name, active_profile := active.name } = 0 := by
          refine List.count_eq_zero_of_not_mem ?_
          intro hmem
          rcases List.mem_map.mp hmem with ⟨m1, _, heq⟩
          injection heq with e1 e2 e3 e4
          exact hpa e4
        rw [hzero, ih hnt active hat hwf mid]
        simp
    · have hstep : Switcher.check_stack_conflicts displayOf incoming (p :: t)
          = Switcher.check_stack_conflicts displayOf incoming t := by
        unfold Switcher.check_stack_conflicts
        rw [List.filter_cons, if_neg hp]
      rw [hstep]
      rcases List.mem_cons.mp hact with hap | hat
      · subst hap
        have hzero : (Switcher.check_stack_conflicts displayOf incoming t).count
            { module_id := mid, display_name := displayOf mid,
              incoming_profile := incoming.name, active_profile := active.name } = 0 := by
          refine List.count_eq_zero_of_not_mem ?_
          intro hmem
          exact hph (check_stack_conflicts_mem displayOf incoming t _ hmem).1
        rw [hzero]
        have hne : active.name = incoming.name := by simpa using hp
        rw [if_neg (fun hall => hall.1 hne)]
      · exact ih hnt active hat hwf mid

/-- Claim C6: `check_stack_conflicts` reports exactly one StackConflict per
pair (module, active profile) where the active profile is a stack member
whose name differs from the incoming profile's and the module is enabled by
both; it never reports a conflict against a stack entry sharing the incoming
profile's name.  It is a pure function: it blocks nothing and mutates
nothing. -/
theorem check_stack_conflicts_exact (displayOf : String → String) (incoming : Profile)
    (stack : List Profile) (hnames : (stack.map Profile.name).Nodup)
    (active : Profile) (hact : active ∈ stack) (hwf : active.wf) (mid : String) :
    (Switcher.check_stack_conflicts displayOf incoming stack).count
        { module_id := mid, display_name := displayOf mid,
          incoming_profile := incoming.name, active_profile := active.name }
      = (if active.name ≠ incoming.name
            ∧ mid ∈ active.enabled_modules ∧ mid ∈ incoming.enabled_modules
         then 1 else 0)
    ∧ (∀ c ∈ Switcher.check_stack_conflicts displayOf incoming stack,
        c.active_profile ≠ incoming.name) :=
  ⟨check_count_aux displayOf incoming stack hnames active hact hwf mid,
   fun c hc => (check_stack_conflicts_mem displayOf incoming stack c hc).2⟩

/-- Concrete instantiation for `check_stack_conflicts_exact`: incoming B
against stack [A], both enabling `x`: exactly one conflict. -/
theorem check_stack_conflicts_exact_witness :
    (([profA].map Profile.name).Nodup ∧ profA ∈ [profA] ∧ profA.wf)
    ∧ ((Switcher.check_stack_conflicts (fun m => m) profB [profA]).count
          { module_id := "x", display_name := "x",
            incoming_profile := profB.name, active_profile := profA.name }
        = (if profA.name ≠ profB.name
              ∧ "x" ∈ profA.enabled_modules ∧ "x" ∈ profB.enabled_modules
           then 1 else 0)
      ∧ (∀ c ∈ Switcher.check_stack_conflicts (fun m => m) profB [profA],
          c.active_profile ≠ profB.name)) :=
  ⟨⟨by decide, by decide, by decide⟩,
   check_stack_conflicts_exact (fun m => m) profB [profA] (by decide) profA (by decide)
     (by decide) "x"⟩

/-! ### Running-process conflicts (claim C9) -/

/-- What one iteration of `Switcher.check_conflicts` contributes for a
module: a conflict exactly when the status query succeeds, reports the app
running, and the module cannot live-reload. -/
def conflictOf? {σ : Type} (env : ModuleEnv σ) (profile : Profile) (s : σ)
    (mid : String) : Option ModuleConflict :=
  match env.get_status mid (profile.get_module_options mid) s with
  | Except.error _ => none
  | Except.ok status =>
      if status.is_running && !(env.can_reload_live mid (profile.get_module_options mid)) then
        some { module_id := mid, display_name := env.display_name mid,
               pids := status.process_pids, can_reload := false }
      else none

theorem check_conflicts_eq_filterMap {σ : Type} (env : ModuleEnv σ) (profile : Profile)
    (s : σ) :
    Switcher.check_conflicts env profile s
      = (profile.enabled_modules).filterMap (conflictOf? env profile s) := by
  unfold Switcher.check_conflicts
  have aux : ∀ (l : List String) (acc : List ModuleConflict),
      l.foldl
        (fun conflicts mid =>
          match env.get_status mid (profile.get_module_options mid) s with
          | Except.error _ => conflicts
          | Except.ok status =>
              if status.is_running && !(env.can_reload_live mid (profile.get_module_options mid)) then
                conflicts ++ [{ module_id := mid
                                display_name := env.display_name mid
                                pids := status.process_pids
                                can_reload := false }]
              else conflicts)
        acc
      = acc ++ l.filterMap (conflictOf? env profile s) := by
    intro l
    induction l with
    | nil => intro acc; simp
    | cons a t ih =>
      intro acc
      rw [List.foldl_cons, List.filterMap_cons, ih]
      cases hst : env.get_status a (profile.get_module_options a) s with
      | error e => simp [conflictOf?, hst]
      | ok status =>
        by_cases hrun : (status.is_running
            && !(env.can_reload_live a (profile.get_module_options a))) = true
        · simp [conflictOf?, hst, hrun]
        · simp [conflictOf?, hst, hrun]
  simpa using aux profile.enabled_modules []

/-- Claim C9: the conflicts returned by `check_conflicts` carry the current
process ids and are exactly those for enabled modules whose status query
succeeds and reports the app running while the module does not support live
reload; an enabled module that is running but can live-reload (or whose
status query raises) never produces a conflict. -/
theorem check_conflicts_exact {σ : Type} (env : ModuleEnv σ) (profile : Profile)
    (s : σ) (mid : String) (pids : List Nat) :
    (({ module_id := mid, display_name := env.display_name mid,
        pids := pids, can_reload := false } : ModuleConflict)
        ∈ Switcher.check_conflicts env profile s)
    ↔ (mid ∈ profile.enabled_modules
        ∧ ∃ st, env.get_status mid (profile.get_module_options mid) s = Except.ok st
            ∧ st.is_running = true
            ∧ env.can_reload_live mid (profile.get_module_options mid) = false
            ∧ pids = st.process_pids) := by
  rw [check_conflicts_eq_filterMap, List.mem_filterMap]
  constructor
  · rintro ⟨m1, hm1, hc⟩
    unfold conflictOf? at hc
    cases hst : env.get_status m1 (profile.get_module_options m1) s with
    | error e => rw [hst] at hc; simp at hc
    | ok status =>
      rw [hst] at hc
      dsimp only at hc
      by_cases hrun : (status.is_running
          && !(env.can_reload_live m1 (profile.get_module_options m1))) = true
      · rw [if_pos hrun] at hc
        simp only [Option.some.injEq, ModuleConflict.mk.injEq] at hc
        obtain ⟨he1, _, he3, _⟩ := hc
        subst he1
        have hr := hrun
        simp only [Bool.and_eq_true, Bool.not_eq_true'] at hr
        exact ⟨hm1, status, hst, hr.1, hr.2, he3.symm⟩
      · rw [if_neg hrun] at hc
        cases hc
  · rintro ⟨hmid, st, hst, hrun, hrel, hpids⟩
    refine ⟨mid, hmid, ?_⟩
    unfold conflictOf?
    rw [hst]
    dsimp only
    rw [if_pos (by simp [hrun, hrel])]
    subst hpids
    rfl

/-! ### Filesystem model for the default file-copy backup/restore
(`core/module_base.py`).

A file's content is one opaque blob (`String`); a config path that is a
directory is modelled as a single blob too, since `shutil.copytree` after
`rmtree` behaves on it exactly like an overwriting whole-content copy.
Directories created empty by `mkdir` are tracked separately; directory
listings (`iterdir`) report the names directly below a directory that carry
a file blob, which covers everything the modelled operations ever create
under a module's backup directory. -/

structure Fs where
  files : List (DirPath × String)
  dirs : List DirPath
deriving DecidableEq, Repr

def Fs.lookupFile (fs : Fs) (p : DirPath) : Option String :=
  dictGet? fs.files p

def Fs.fileExists (fs : Fs) (p : DirPath) : Bool :=
  (fs.lookupFile p).isSome

def Fs.setFile (fs : Fs) (p : DirPath) (c : String) : Fs :=
  { fs with files := dictSet fs.files p c }

def Fs.mkdir (fs : Fs) (d : DirPath) : Fs :=
  { fs with dirs := if d ∈ fs.dirs then fs.dirs else fs.dirs ++ [d] }

def Fs.dirExists (fs : Fs) (d : DirPath) : Bool :=
  fs.dirs.contains d || fs.files.any (fun kv => d.isPrefixOf kv.1 && !(d == kv.1))

/-- `Path.exists()`. -/
def Fs.pathExists (fs : Fs) (p : DirPath) : Bool :=
  fs.fileExists p || fs.dirExists p

/-- `Path.iterdir()`: names of the file entries directly below `d`. -/
def Fs.iterdirNames (fs : Fs) (d : DirPath) : List String :=
  fs.files.filterMap (fun kv =>
    if kv.1.take d.length = d then
      match kv.1.drop d.length with
      | [n] => some n
      | _ => none
    else none)

/-- `src_path.name`. -/
def pathBaseName (p : DirPath) : String :=
  p.getLast?.getD ""

/-- One iteration of the copy loop of `VRModule.backup`: skip a missing
config path (counting it), else copy its blob to
`dest_dir/<id>/<basename>`.  State is (filesystem, copied, missing);
per-path copy errors cannot occur in the blob model. -/
def backupFold (id : String) (dest_dir : DirPath) (acc : Fs × Nat × Nat)
    (src : DirPath) : Fs × Nat × Nat :=
  match acc.1.lookupFile src with
  | none => (acc.1, acc.2.1, acc.2.2 + 1)
  | some c => (acc.1.setFile (dest_dir ++ [id, pathBaseName src]) c, acc.2.1 + 1, acc.2.2)

/-- `VRModule.backup` (default file-copy implementation). -/
def moduleBackup (id : String) (cfgPaths : List DirPath) (dest_dir : DirPath)
    (fs : Fs) : (Bool × String) × Fs :=
  ((if (cfgPaths.foldl (backupFold id dest_dir) (fs.mkdir (dest_dir ++ [id]), 0, 0)).2.1 = 0
       ∧ (cfgPaths.foldl (backupFold id dest_dir) (fs.mkdir (dest_dir ++ [id]), 0, 0)).2.2 > 0
    then (false, "Nothing to back up — "
      ++ toString (cfgPaths.foldl (backupFold id dest_dir)
          (fs.mkdir (dest_dir ++ [id]), 0, 0)).2.2
      ++ " config path(s) not found")
    else (true, "Backed up "
      ++ toString (cfgPaths.foldl (backupFold id dest_dir)
          (fs.mkdir (dest_dir ++ [id]), 0, 0)).2.1
      ++ " item(s)")),
   (cfgPaths.foldl (backupFold id dest_dir) (fs.mkdir (dest_dir ++ [id]), 0, 0)).1)

/-- `dest_map = {p.name: p for p in config_paths}` (later names overwrite). -/
def destMap (cfgPaths : List DirPath) : List (String × DirPath) :=
  cfgPaths.foldl (fun d p => dictSet d (pathBaseName p) p) []

/-- One iteration of the copy-back loop of `VRModule.restore`: the
destination is the config path matching the item's name, else (fallback)
the same name next to the first config path, else the item is skipped. -/
def restoreFold (id : String) (cfgPaths : List DirPath) (src_dir : DirPath)
    (acc : Fs × Nat) (n : String) : Fs × Nat :=
  match (match dictGet? (destMap cfgPaths) n with
         | some p => some p
         | none => match cfgPaths with
           | [] => none
           | p0 :: _ => some (p0.dropLast ++ [n])) with
  | none => acc
  | some dst =>
      match acc.1.lookupFile (src_dir ++ [id, n]) with
      | some c => ((acc.1.mkdir dst.dropLast).setFile dst c, acc.2 + 1)
      | none => acc

/-- `VRModule.restore` (default file-copy implementation). -/
def moduleRestore (id : String) (cfgPaths : List DirPath) (src_dir : DirPath)
    (fs : Fs) : (Bool × String) × Fs :=
  if fs.pathExists (src_dir ++ [id]) then
    ((if ((fs.iterdirNames (src_dir ++ [id])).foldl
           (restoreFold id cfgPaths src_dir) (fs, 0)).2 = 0
      then (false, "Nothing was restored")
      else (true, "Restored "
        ++ toString ((fs.iterdirNames (src_dir ++ [id])).foldl
            (restoreFold id cfgPaths src_dir) (fs, 0)).2
        ++ " item(s)")),
     ((fs.iterdirNames (src_dir ++ [id])).foldl
        (restoreFold id cfgPaths src_dir) (fs, 0)).1)
  else ((false, "No backup found for module '" ++ id ++ "' in profile"), fs)

/-- `VRModule.validate_backup` (default implementation). -/
def moduleValidate (id : String) (profile_dir : DirPath) (fs : Fs) : Bool × String :=
  if fs.pathExists (profile_dir ++ [id]) then
    if fs.iterdirNames (profile_dir ++ [id]) = [] then (false, "Backup directory is empty")
    else (true, "OK")
  else (false, "No backup directory found")

/-- The module environment realised by the default file-copy modules over
the filesystem model: `cfg` gives each module id its config paths (the
option argument is unused because in the round-trip scenario every call
uses the same profile's options).  No process is running, so no reload is
attempted; profile metadata writes store an opaque blob. -/
def fsEnv (cfg : String → List DirPath) (base : DirPath) : ModuleEnv Fs :=
  { base_dir := base
    display_name := fun mid => mid
    can_reload_live := fun _ _ => false
    backup := fun mid _ d fs =>
      (Except.ok (moduleBackup mid (cfg mid) d fs).1, (moduleBackup mid (cfg mid) d fs).2)
    restore := fun mid _ d fs =>
      (Except.ok (moduleRestore mid (cfg mid) d fs).1, (moduleRestore mid (cfg mid) d fs).2)
    validate_backup := fun mid _ d fs => Except.ok (moduleValidate mid d fs)
    get_status := fun mid _ fs =>
      Except.ok { is_running := false, process_pids := []
                  config_paths_exist := (cfg mid).any (fun p => fs.fileExists p) }
    trigger_reload := fun _ _ _ => Except.ok false
    remove_launch_args := fun fs => (Except.ok (true, ""), fs)
    write_auto_meta := fun meta fs =>
      (fs.mkdir (autoBackupDir base)).setFile (autoBackupDir base ++ ["profile.json"]) meta.name
    save_profile_meta := fun p fs =>
      (fs.mkdir (profileDir base p.name)).setFile
        (profileDir base p.name ++ ["profile.json"]) p.name
    touch_last_used := fun n fs =>
      fs.setFile (profileDir base n ++ ["profile.json"]) n }

/-- Config paths for the round-trip counterexample: module `m` owns
`cfg/a.txt` and `cfg/b.txt`. -/
def cexCfg : String → List DirPath := fun _ => [["cfg", "a.txt"], ["cfg", "b.txt"]]

/-- Initial world for the counterexample: `cfg/a.txt` exists live, and the
profile's backup directory holds a stale `b.txt` from an earlier backup
(reachable because `backup` never clears old entries). -/
def cexFs0 : Fs :=
  { files := [(["cfg", "a.txt"], "live"), (["profiles", "P", "m", "b.txt"], "stale")]
    dirs := [] }

/-- Profile "P" enabling only module `m`. -/
def profP : Profile := { name := "P", modules := [("m", { enabled := true, options := [] })] }

/-- Claim C8, counterexample to the claim as stated: at backup time
`cfg/b.txt` does not exist, yet after backupToProfile(P) followed
immediately by loadIntoStack(P, []) the restore copies the stale `b.txt`
back into place, so the live config is not observably equivalent to the
backup-time state. -/
theorem round_trip_claim_cex :
    Fs.lookupFile
        (Switcher.load_into_stack (fsEnv cexCfg ["profiles"]) profP [] true
          (Switcher.backup_to_profile (fsEnv cexCfg ["profiles"]) profP cexFs0).2.1).2.1
        ["cfg", "b.txt"]
      = some "stale"
    ∧ Fs.lookupFile cexFs0 ["cfg", "b.txt"] = none :=
  ⟨rfl, rfl⟩

/-! ### Round-trip analysis (claim C8) -/

theorem Fs.lookupFile_setFile (fs : Fs) (p : DirPath) (c : String) (q : DirPath) :
    (fs.setFile p c).lookupFile q = if q = p then some c else fs.lookupFile q := by
  unfold Fs.setFile Fs.lookupFile
  exact dictGet?_dictSet fs.files p q c

theorem Fs.lookupFile_mkdir (fs : Fs) (d : DirPath) (q : DirPath) :
    (fs.mkdir d).lookupFile q = fs.lookupFile q := rfl

theorem dictGet?_eq_none {α β : Type} [DecidableEq α] (l : List (α × β)) (q : α)
    (h : ∀ kv ∈ l, kv.1 ≠ q) : dictGet? l q = none := by
  induction l with
  | nil => rfl
  | cons kv t ih =>
    obtain ⟨k, v⟩ := kv
    have hk : k ≠ q := h (k, v) (List.mem_cons_self _ _)
    simp only [dictGet?, if_neg hk]
    exact ih (fun kv2 h2 => h kv2 (List.mem_cons_of_mem _ h2))

/-- `q` lies (non-strictly) below directory `d`: its first components are `d`. -/
def underDir (d q : DirPath) : Prop :=
  q.take d.length = d

theorem underDir_self_append (d rest : DirPath) : underDir d (d ++ rest) := by
  unfold underDir
  exact List.take_left d rest

theorem underDir_of_append (x y q : DirPath) (h : underDir (x ++ y) q) : underDir x q := by
  unfold underDir at h ⊢
  have hlen : x.length ≤ (x ++ y).length := by simp
  have h2 : (q.take (x ++ y).length).take x.length = q.take x.length := by
    rw [List.take_take, Nat.min_eq_left hlen]
  rw [← h2, h, List.take_append_of_le_length (Nat.le_refl _), List.take_length]

theorem ne_of_not_underDir {base q w : DirPath} (hq : ¬ underDir base q)
    (hw : underDir base w) : q ≠ w := by
  intro he
  exact hq (he ▸ hw)

theorem find?_congr_list {γ : Type _} (l : List γ) (p q : γ → Bool)
    (h : ∀ x ∈ l, p x = q x) : l.find? p = l.find? q := by
  induction l with
  | nil => rfl
  | cons a t ih =>
    have ha := h a (List.mem_cons_self _ _)
    rw [List.find?_cons, List.find?_cons, ha]
    cases q a
    · exact ih (fun x hx => h x (List.mem_cons_of_mem _ hx))
    · rfl

theorem destMap_lookup_mem (L : List DirPath) (n : String) (p : DirPath)
    (h : dictGet? (destMap L) n = some p) : p ∈ L ∧ pathBaseName p = n := by
  unfold destMap at h
  have aux : ∀ (l : List DirPath) (acc : List (String × DirPath)),
      (∀ k q, dictGet? acc k = some q → q ∈ L ∧ pathBaseName q = k) →
      (∀ x ∈ l, x ∈ L) →
      ∀ k q, dictGet? (l.foldl (fun d x => dictSet d (pathBaseName x) x) acc) k = some q →
        q ∈ L ∧ pathBaseName q = k := by
    intro l
    induction l with
    | nil => intro acc hacc _ k q hq; exact hacc k q hq
    | cons a t ih =>
      intro acc hacc hl k q hq
      refine ih (dictSet acc (pathBaseName a) a) ?_
        (fun x hx => hl x (List.mem_cons_of_mem _ hx)) k q hq
      intro k1 q1 hq1
      rw [dictGet?_dictSet] at hq1
      by_cases hk : k1 = pathBaseName a
      · rw [if_pos hk] at hq1
        cases hq1
        exact ⟨hl a (List.mem_cons_self _ _), hk.symm⟩
      · rw [if_neg hk] at hq1
        exact hacc k1 q1 hq1
  exact aux L [] (fun k q hq => by cases hq) (fun x hx => hx) n p h

theorem destMap_isSome (L : List DirPath) (p : DirPath) (hp : p ∈ L) :
    (dictGet? (destMap L) (pathBaseName p)).isSome := by
  unfold destMap
  have aux : ∀ (l : List DirPath) (acc : List (String × DirPath)),
      (p ∈ l ∨ (dictGet? acc (pathBaseName p)).isSome) →
      (dictGet? (l.foldl (fun d x => dictSet d (pathBaseName x) x) acc)
        (pathBaseName p)).isSome := by
    intro l
    induction l with
    | nil =>
      intro acc h
      rcases h with h | h
      · simp at h
      · simpa using h
    | cons a t ih =>
      intro acc h
      refine ih (dictSet acc (pathBaseName a) a) ?_
      rcases h with h | h
      · rcases List.mem_cons.mp h with h1 | h1
        · subst h1
          right
          rw [dictGet?_dictSet, if_pos rfl]
          rfl
        · exact Or.inl h1
      · right
        rw [dictGet?_dictSet]
        by_cases hk : pathBaseName p = pathBaseName a
        · rw [if_pos hk]; rfl
        · rw [if_neg hk]; exact h
  exact aux L [] (Or.inl hp)

theorem backupFold_dirs (id : String) (dest : DirPath) :
    ∀ (L : List DirPath) (acc : Fs × Nat × Nat),
      (L.foldl (backupFold id dest) acc).1.dirs = acc.1.dirs := by
  intro L
  induction L with
  | nil => intro acc; rfl
  | cons p t ih =>
    intro acc
    rw [List.foldl_cons, ih]
    unfold backupFold
    cases acc.1.lookupFile p <;> rfl

theorem underDir_write (dest : DirPath) (id n : String) :
    underDir (dest ++ [id]) (dest ++ [id, n]) := by
  have h : dest ++ [id, n] = (dest ++ [id]) ++ [n] := by simp
  rw [h]
  exact underDir_self_append _ _

theorem write_path_ne (dest : DirPath) (id n m : String) (h : n ≠ m) :
    dest ++ [id, n] ≠ dest ++ [id, m] := by
  intro he
  have h2 := List.append_cancel_left he
  simp at h2
  exact h h2

theorem backupFold_outside (id : String) (dest : DirPath) :
    ∀ (L : List DirPath) (acc : Fs × Nat × Nat) (q : DirPath),
      ¬ underDir (dest ++ [id]) q →
      (L.foldl (backupFold id dest) acc).1.lookupFile q = acc.1.lookupFile q := by
  intro L
  induction L with
  | nil => intro acc q _; rfl
  | cons p t ih =>
    intro acc q hq
    rw [List.foldl_cons]
    rw [ih _ q hq]
    unfold backupFold
    cases hlk : acc.1.lookupFile p with
    | none => rfl
    | some c =>
      dsimp only
      rw [Fs.lookupFile_setFile,
        if_neg (ne_of_not_underDir hq (underDir_write dest id (pathBaseName p)))]

theorem backupFold_at (id : String) (dest : DirPath) :
    ∀ (L : List DirPath) (acc : Fs × Nat × Nat),
      (∀ p ∈ L, ¬ underDir (dest ++ [id]) p) →
      (L.map pathBaseName).Nodup →
      ∀ n, (L.foldl (backupFold id dest) acc).1.lookupFile (dest ++ [id, n])
        = match L.find? (fun p => pathBaseName p == n && (acc.1.lookupFile p).isSome) with
          | some p => acc.1.lookupFile p
          | none => acc.1.lookupFile (dest ++ [id, n]) := by
  intro L
  induction L with
  | nil => intro acc _ _ n; rfl
  | cons p t ih =>
    intro acc hsep hnodup n
    have hsept : ∀ x ∈ t, ¬ underDir (dest ++ [id]) x :=
      fun x hx => hsep x (List.mem_cons_of_mem _ hx)
    have hnd : pathBaseName p ∉ t.map pathBaseName ∧ (t.map pathBaseName).Nodup := by
      rw [List.map_cons] at hnodup
      exact List.nodup_cons.mp hnodup
    rw [List.foldl_cons, List.find?_cons]
    cases hlk : acc.1.lookupFile p with
    | none =>
      have hstep : backupFold id dest acc p = (acc.1, acc.2.1, acc.2.2 + 1) := by
        unfold backupFold; rw [hlk]
      rw [hstep]
      have hih := ih (acc.1, acc.2.1, acc.2.2 + 1) hsept hnd.2 n
      dsimp only at hih
      rw [hih]
      simp only [Option.isSome_none, Bool.and_false]
    | some c =>
      have hstep : backupFold id dest acc p
          = (acc.1.setFile (dest ++ [id, pathBaseName p]) c, acc.2.1 + 1, acc.2.2) := by
        unfold backupFold; rw [hlk]
      rw [hstep]
      have hpres : ∀ x ∈ t,
          (acc.1.setFile (dest ++ [id, pathBaseName p]) c).lookupFile x
            = acc.1.lookupFile x := by
        intro x hx
        rw [Fs.lookupFile_setFile,
          if_neg (ne_of_not_underDir (hsept x hx) (underDir_write dest id (pathBaseName p)))]
      have hih := ih (acc.1.setFile (dest ++ [id, pathBaseName p]) c, acc.2.1 + 1, acc.2.2)
        hsept hnd.2 n
      dsimp only at hih
      have hcongr : t.find? (fun x => pathBaseName x == n
            && ((acc.1.setFile (dest ++ [id, pathBaseName p]) c).lookupFile x).isSome)
          = t.find? (fun x => pathBaseName x == n && (acc.1.lookupFile x).isSome) := by
        refine find?_congr_list t _ _ ?_
        intro x hx
        rw [hpres x hx]
      rw [hih, hcongr]
      simp only [Option.isSome_some, Bool.and_true]
      by_cases hn : pathBaseName p = n
      · have hpt : (pathBaseName p == n) = true := by simp [hn]
        rw [hpt]
        have hnone : t.find? (fun x => pathBaseName x == n && (acc.1.lookupFile x).isSome)
            = none := by
          rw [List.find?_eq_none]
          intro x hx hpx
          have hbx : pathBaseName x = n := by
            simp only [Bool.and_eq_true] at hpx
            simpa using hpx.1
          exact hnd.1 (hn ▸ hbx ▸ List.mem_map.mpr ⟨x, hx, rfl⟩)
        rw [hnone]
        dsimp only
        rw [Fs.lookupFile_setFile, hn, if_pos rfl, hlk]
      · have hpf : (pathBaseName p == n) = false := by simp [hn]
        rw [hpf]
        dsimp only
        cases hf : t.find? (fun x => pathBaseName x == n && (acc.1.lookupFile x).isSome) with
        | some p2 =>
          dsimp only
          exact hpres p2 (List.mem_of_find?_eq_some hf)
        | none =>
          dsimp only
          rw [Fs.lookupFile_setFile,
            if_neg (write_path_ne dest id n (pathBaseName p) (fun he => hn he.symm))]

theorem moduleBackup_state (id : String) (L : List DirPath) (dest : DirPath) (fs : Fs)
    (hsep : ∀ p ∈ L, ¬ underDir (dest ++ [id]) p) :
    (∀ q, ¬ underDir (dest ++ [id]) q →
       (moduleBackup id L dest fs).2.lookupFile q = fs.lookupFile q)
    ∧ ((L.map pathBaseName).Nodup →
       ∀ n, (moduleBackup id L dest fs).2.lookupFile (dest ++ [id, n])
         = match L.find? (fun p => pathBaseName p == n && (fs.lookupFile p).isSome) with
           | some p => fs.lookupFile p
           | none => fs.lookupFile (dest ++ [id, n]))
    ∧ (moduleBackup id L dest fs).2.dirs = (fs.mkdir (dest ++ [id])).dirs := by
  refine ⟨?_, ?_, ?_⟩
  · intro q hq
    exact backupFold_outside id dest L _ q hq
  · intro hnodup n
    have h := backupFold_at id dest L (fs.mkdir (dest ++ [id]), 0, 0) hsep hnodup n
    exact h
  · exact backupFold_dirs id dest L _

theorem underDir_append_right (x q r : DirPath) (h : underDir x q) :
    underDir x (q ++ r) := by
  unfold underDir at h ⊢
  have hlen : x.length ≤ q.length := by
    have h2 : (q.take x.length).length = min x.length q.length := List.length_take _ _
    rw [h] at h2
    exact le_trans (le_of_eq h2) (Nat.min_le_right _ _)
  rw [List.take_append_of_le_length hlen]
  exact h

theorem restoreFold_step_cases (a : String) (L : List DirPath) (D base : DirPath)
    (fs0 g : Fs) (hDun : underDir base (D ++ [a]))
    (hnodup : (L.map pathBaseName).Nodup)
    (hJ2 : ∀ n, g.lookupFile (D ++ [a, n])
       = (L.find? (fun p => pathBaseName p == n && (fs0.lookupFile p).isSome)).bind
           (fun p => fs0.lookupFile p))
    (acc : Fs × Nat) (n : String)
    (hK2 : ∀ q, underDir base q → acc.1.lookupFile q = g.lookupFile q) :
    (restoreFold a L D acc n).1 = acc.1
    ∨ ∃ p c, p ∈ L ∧ fs0.lookupFile p = some c
        ∧ (restoreFold a L D acc n).1 = (acc.1.mkdir p.dropLast).setFile p c := by
  have hread : acc.1.lookupFile (D ++ [a, n])
      = (L.find? (fun p => pathBaseName p == n && (fs0.lookupFile p).isSome)).bind
          (fun p => fs0.lookupFile p) := by
    have hu : underDir base (D ++ [a, n]) := by
      have h2 : D ++ [a, n] = (D ++ [a]) ++ [n] := by simp
      rw [h2]
      exact underDir_append_right base (D ++ [a]) [n] hDun
    rw [hK2 _ hu, hJ2 n]
  unfold restoreFold
  cases hdm : dictGet? (destMap L) n with
  | some p =>
    obtain ⟨hpL, hpn⟩ := destMap_lookup_mem L n p hdm
    dsimp only
    cases hre : acc.1.lookupFile (D ++ [a, n]) with
    | none => exact Or.inl rfl
    | some c =>
      right
      rw [hre] at hread
      cases hf : L.find? (fun p => pathBaseName p == n && (fs0.lookupFile p).isSome) with
      | none => rw [hf] at hread; cases hread
      | some pw =>
        rw [hf] at hread
        have hpw := List.mem_of_find?_eq_some hf
        have hpred := List.find?_some hf
        have hpwn : pathBaseName pw = n := by
          simp only [Bool.and_eq_true] at hpred
          simpa using hpred.1
        have hpe : p = pw :=
          List.inj_on_of_nodup_map hnodup hpL hpw (by rw [hpn, hpwn])
        subst hpe
        exact ⟨p, c, hpL, hread.symm, rfl⟩
  | none =>
    dsimp only
    cases L with
    | nil => exact Or.inl rfl
    | cons p0 t0 =>
      dsimp only
      cases hre : acc.1.lookupFile (D ++ [a, n]) with
      | none => exact Or.inl rfl
      | some c =>
        exfalso
        rw [hre] at hread
        cases hf : (p0 :: t0).find? (fun p => pathBaseName p == n && (fs0.lookupFile p).isSome) with
        | none => rw [hf] at hread; cases hread
        | some pw =>
          have hpw := List.mem_of_find?_eq_some hf
          have hpred := List.find?_some hf
          have hpwn : pathBaseName pw = n := by
            simp only [Bool.and_eq_true] at hpred
            simpa using hpred.1
          have hsome := destMap_isSome (p0 :: t0) pw hpw
          rw [hpwn, hdm] at hsome
          cases hsome

theorem restoreFold_K (a : String) (L : List DirPath) (D base : DirPath) (fs0 g : Fs)
    (hDun : underDir base (D ++ [a]))
    (hnodup : (L.map pathBaseName).Nodup)
    (hsep : ∀ p ∈ L, ¬ underDir base p)
    (hJ2 : ∀ n, g.lookupFile (D ++ [a, n])
       = (L.find? (fun p => pathBaseName p == n && (fs0.lookupFile p).isSome)).bind
           (fun p => fs0.lookupFile p)) :
    ∀ (ns : List String) (acc : Fs × Nat),
      (∀ q, ¬ underDir base q → acc.1.lookupFile q = fs0.lookupFile q) →
      (∀ q, underDir base q → acc.1.lookupFile q = g.lookupFile q) →
      ((∀ q, ¬ underDir base q →
          (ns.foldl (restoreFold a L D) acc).1.lookupFile q = fs0.lookupFile q)
       ∧ (∀ q, underDir base q →
          (ns.foldl (restoreFold a L D) acc).1.lookupFile q = g.lookupFile q)) := by
  intro ns
  induction ns with
  | nil => intro acc h1 h2; exact ⟨h1, h2⟩
  | cons n t ih =>
    intro acc h1 h2
    rw [List.foldl_cons]
    rcases restoreFold_step_cases a L D base fs0 g hDun hnodup hJ2 acc n h2 with hc | ⟨p, c, hpL, hpc, hc⟩
    · exact ih (restoreFold a L D acc n) (fun q hq => by rw [hc]; exact h1 q hq)
        (fun q hq => by rw [hc]; exact h2 q hq)
    · refine ih (restoreFold a L D acc n) ?_ ?_
      · intro q hq
        rw [hc, Fs.lookupFile_setFile]
        by_cases hqp : q = p
        · rw [if_pos hqp, hqp, hpc]
        · rw [if_neg hqp, Fs.lookupFile_mkdir]
          exact h1 q hq
      · intro q hq
        rw [hc, Fs.lookupFile_setFile]
        have hqp : q ≠ p := fun he => hsep p hpL (he ▸ hq)
        rw [if_neg hqp, Fs.lookupFile_mkdir]
        exact h2 q hq

theorem moduleRestore_J (a : String) (L : List DirPath) (D base : DirPath) (fs0 g : Fs)
    (hDun : underDir base (D ++ [a]))
    (hnodup : (L.map pathBaseName).Nodup)
    (hsep : ∀ p ∈ L, ¬ underDir base p)
    (hJ1 : ∀ q, ¬ underDir base q → g.lookupFile q = fs0.lookupFile q)
    (hJ2 : ∀ n, g.lookupFile (D ++ [a, n])
       = (L.find? (fun p => pathBaseName p == n && (fs0.lookupFile p).isSome)).bind
           (fun p => fs0.lookupFile p)) :
    (∀ q, ¬ underDir base q → (moduleRestore a L D g).2.lookupFile q = fs0.lookupFile q)
    ∧ (∀ q, underDir base q → (moduleRestore a L D g).2.lookupFile q = g.lookupFile q) := by
  unfold moduleRestore
  split
  · exact restoreFold_K a L D base fs0 g hDun hnodup hsep hJ2
      (g.iterdirNames (D ++ [a])) (g, 0) hJ1 (fun q _ => rfl)
  · exact ⟨hJ1, fun q _ => rfl⟩

theorem backupStep_st {σ : Type} (env : ModuleEnv σ) (p : Profile) (dest : DirPath)
    (acc : OpAcc σ) (mid : String) :
    (Switcher.backupStep env p dest acc mid).st
      = (env.backup mid (p.get_module_options mid) dest acc.st).2 := by
  unfold Switcher.backupStep
  rcases hb : env.backup mid (p.get_module_options mid) dest acc.st with ⟨r, s1⟩
  rcases r with e | ⟨ok, msg⟩
  · rfl
  · by_cases hok : ok = true
    · subst hok; rfl
    · have hf : ok = false := by cases ok <;> simp_all
      subst hf; rfl

theorem loadStep_st_cases {σ : Type} (env : ModuleEnv σ) (inc : Profile) (dir : DirPath)
    (acc : OpAcc σ) (mid : String) :
    (Switcher.loadStep env inc dir acc mid).st = acc.st
    ∨ (Switcher.loadStep env inc dir acc mid).st
        = (env.restore mid (inc.get_module_options mid) dir acc.st).2 := by
  unfold Switcher.loadStep
  cases hv : env.validate_backup mid (inc.get_module_options mid) dir acc.st with
  | error e => exact Or.inl rfl
  | ok vr =>
    obtain ⟨vb, vmsg⟩ := vr
    cases vb
    · exact Or.inl rfl
    · right
      rcases hr : env.restore mid (inc.get_module_options mid) dir acc.st with ⟨r, s1⟩
      rcases r with e | ⟨ok, msg⟩
      · rfl
      · by_cases hok : ok = true
        · subst hok
          dsimp only
          cases hs : env.get_status mid (inc.get_module_options mid) s1 with
          | error e2 => rfl
          | ok st2 =>
            dsimp only
            by_cases hrun : (st2.is_running
                && env.can_reload_live mid (inc.get_module_options mid)) = true
            · rw [if_pos hrun]
              cases ht : env.trigger_reload mid (inc.get_module_options mid) s1 with
              | error e3 => rfl
              | ok rok =>
                by_cases hrok : rok = true
                · subst hrok; rfl
                · have hf : rok = false := by cases rok <;> simp_all
                  subst hf; rfl
            · rw [if_neg hrun]
              rfl
        · have hf : ok = false := by cases ok <;> simp_all
          subst hf; rfl

/-- The content the backup phase leaves at `profiles/<P>/<mid>/<n>`: the
original content of the unique config path of `mid` with basename `n`,
when it existed. -/
def backupContent (cfg : String → List DirPath) (fs0 : Fs) (mid n : String) :
    Option String :=
  ((cfg mid).find? (fun p => pathBaseName p == n && (fs0.lookupFile p).isSome)).bind
    (fun p => fs0.lookupFile p)

theorem underDir_base_profile (base : DirPath) (x : String) (rest : DirPath) :
    underDir base ((base ++ [x]) ++ rest) := by
  rw [List.append_assoc]
  exact underDir_self_append base ([x] ++ rest)

theorem profile_file_ne_meta (base : DirPath) (pn mid n : String) :
    (base ++ [pn]) ++ [mid, n] ≠ (base ++ [pn]) ++ ["profile.json"] := by
  intro he
  have h2 := congrArg List.length he
  simp at h2

theorem profile_file_ne_auto_meta (base : DirPath) (pn an mid n : String) :
    (base ++ [pn]) ++ [mid, n] ≠ (base ++ [an]) ++ ["profile.json"] := by
  intro he
  have h2 := congrArg List.length he
  simp at h2

theorem not_underDir_other_module (base : DirPath) (pn a mid n : String)
    (hma : mid ≠ a) :
    ¬ underDir ((base ++ [pn]) ++ [a]) ((base ++ [pn]) ++ [mid, n]) := by
  intro h
  unfold underDir at h
  have hlen : ((base ++ [pn]) ++ [a]).length = (base ++ [pn]).length + 1 := by simp
  rw [hlen] at h
  rw [List.take_append 1] at h
  have h2 := List.append_cancel_left h
  simp at h2
  exact hma h2

theorem not_underDir_auto_module (base : DirPath) (pn an a mid n : String)
    (hpa : pn ≠ an) :
    ¬ underDir ((base ++ [an]) ++ [a]) ((base ++ [pn]) ++ [mid, n]) := by
  intro h
  unfold underDir at h
  have hshape : (base ++ [pn]) ++ [mid, n] = base ++ [pn, mid, n] := by simp
  have hlen : ((base ++ [an]) ++ [a]).length = base.length + 2 := by simp
  rw [hlen, hshape, List.take_append 2] at h
  have hshape2 : (base ++ [an]) ++ [a] = base ++ [an, a] := by simp
  rw [hshape2] at h
  have h2 := List.append_cancel_left h
  simp at h2
  exact hpa h2.1

theorem underDir_base_of_profile_sub (base : DirPath) (x : String) (rest q : DirPath)
    (h : underDir ((base ++ [x]) ++ rest) q) : underDir base q := by
  rw [List.append_assoc] at h
  exact underDir_of_append base ([x] ++ rest) q h

theorem backup_loop_J (cfg : String → List DirPath) (base : DirPath) (P : Profile)
    (fs0 : Fs)
    (hnodup : ∀ mid ∈ P.enabled_modules, ((cfg mid).map pathBaseName).Nodup)
    (hout : ∀ mid ∈ P.enabled_modules, ∀ p ∈ cfg mid, ¬ underDir base p) :
    ∀ (l : List String), (∀ m ∈ l, m ∈ P.enabled_modules) →
      ∀ (acc : OpAcc Fs),
        (∀ q, ¬ underDir base q → acc.st.lookupFile q = fs0.lookupFile q) →
        (∀ mid ∈ P.enabled_modules, ∀ n,
          acc.st.lookupFile (profileDir base P.name ++ [mid, n])
              = backupContent cfg fs0 mid n
          ∨ (mid ∈ l ∧ acc.st.lookupFile (profileDir base P.name ++ [mid, n]) = none)) →
        ((∀ q, ¬ underDir base q →
            (l.foldl (Switcher.backupStep (fsEnv cfg base) P
                (profileDir base P.name)) acc).st.lookupFile q = fs0.lookupFile q)
         ∧ (∀ mid ∈ P.enabled_modules, ∀ n,
            (l.foldl (Switcher.backupStep (fsEnv cfg base) P
                (profileDir base P.name)) acc).st.lookupFile
                (profileDir base P.name ++ [mid, n])
              = backupContent cfg fs0 mid n)) := by
  intro l
  induction l with
  | nil =>
    intro _ acc h1 h2
    refine ⟨h1, ?_⟩
    intro mid hmid n
    rcases h2 mid hmid n with h | h
    · exact h
    · simp at h
  | cons a t ih =>
    intro hl acc h1 h2
    have ha : a ∈ P.enabled_modules := hl a (List.mem_cons_self _ _)
    have hst : (Switcher.backupStep (fsEnv cfg base) P (profileDir base P.name) acc a).st
        = (moduleBackup a (cfg a) (profileDir base P.name) acc.st).2 := by
      rw [backupStep_st]
      rfl
    have hsepa : ∀ p ∈ cfg a, ¬ underDir (profileDir base P.name ++ [a]) p := by
      intro p hp hu
      exact hout a ha p hp (underDir_base_of_profile_sub base P.name [a] p hu)
    have mb := moduleBackup_state a (cfg a) (profileDir base P.name) acc.st hsepa
    rw [List.foldl_cons]
    refine ih (fun m hm => hl m (List.mem_cons_of_mem _ hm)) _ ?_ ?_
    · intro q hq
      rw [hst]
      have hq2 : ¬ underDir (profileDir base P.name ++ [a]) q := by
        intro hu
        exact hq (underDir_base_of_profile_sub base P.name [a] q hu)
      rw [mb.1 q hq2]
      exact h1 q hq
    · intro mid hmid n
      rw [hst]
      by_cases hma : mid = a
      · subst hma
        left
        rw [mb.2.1 (hnodup mid hmid) n]
        have hcongr : (cfg mid).find?
              (fun p => pathBaseName p == n && (acc.st.lookupFile p).isSome)
            = (cfg mid).find?
              (fun p => pathBaseName p == n && (fs0.lookupFile p).isSome) := by
          refine find?_congr_list _ _ _ ?_
          intro p hp
          rw [h1 p (hout mid hmid p hp)]
        rw [hcongr]
        cases hf : (cfg mid).find?
            (fun p => pathBaseName p == n && (fs0.lookupFile p).isSome) with
        | some p =>
          dsimp only
          rw [h1 p (hout mid hmid p (List.mem_of_find?_eq_some hf))]
          unfold backupContent
          rw [hf]
          rfl
        | none =>
          dsimp only
          have hbc : backupContent cfg fs0 mid n = none := by
            unfold backupContent
            rw [hf]
            rfl
          rw [hbc]
          rcases h2 mid hmid n with h | h
          · rw [h, hbc]
          · exact h.2
      · have hnu : ¬ underDir (profileDir base P.name ++ [a])
            (profileDir base P.name ++ [mid, n]) :=
          not_underDir_other_module base P.name a mid n hma
        rw [mb.1 _ hnu]
        rcases h2 mid hmid n with h | h
        · exact Or.inl h
        · right
          refine ⟨?_, h.2⟩
          rcases List.mem_cons.mp h.1 with h3 | h3
          · exact absurd h3 hma
          · exact h3

theorem underDir_profileDir (base : DirPath) (x : String) (rest : DirPath) :
    underDir base (profileDir base x ++ rest) :=
  underDir_base_profile base x rest

theorem underDir_autoDir (base : DirPath) (rest : DirPath) :
    underDir base (autoBackupDir base ++ rest) :=
  underDir_base_profile base autoBackupName rest

theorem ne_meta_profileDir (base : DirPath) (pn mid n : String) :
    profileDir base pn ++ [mid, n] ≠ profileDir base pn ++ ["profile.json"] :=
  profile_file_ne_meta base pn mid n

theorem ne_auto_meta_profileDir (base : DirPath) (pn mid n : String) :
    profileDir base pn ++ [mid, n] ≠ autoBackupDir base ++ ["profile.json"] :=
  profile_file_ne_auto_meta base pn autoBackupName mid n

/-- Claim C8 (amended): for a profile whose enabled modules use the default
file-copy backup/restore, if each module's config paths have pairwise
distinct basenames, no config path lies inside the profiles storage area,
the profile's directory holds no stale files, and the profile is not named
like the auto-backup slot, then backupToProfile(P) immediately followed by
loadIntoStack(P, currentStack = [], autoBackupFirst = true) leaves every
enabled module's config paths with exactly their backup-time content. -/
theorem backup_then_load_round_trip (cfg : String → List DirPath) (base : DirPath)
    (P : Profile) (fs0 : Fs)
    (hnodup : ∀ mid ∈ P.enabled_modules, ((cfg mid).map pathBaseName).Nodup)
    (hout : ∀ mid ∈ P.enabled_modules, ∀ p ∈ cfg mid, ¬ underDir base p)
    (hclean : ∀ kv ∈ fs0.files, ¬ underDir (profileDir base P.name) kv.1)
    (hname : P.name ≠ autoBackupName) :
    ∀ mid ∈ P.enabled_modules, ∀ p ∈ cfg mid,
      Fs.lookupFile
          (Switcher.load_into_stack (fsEnv cfg base) P [] true
            (Switcher.backup_to_profile (fsEnv cfg base) P fs0).2.1).2.1 p
        = Fs.lookupFile fs0 p := by
  have hnone0 : ∀ m n, fs0.lookupFile (profileDir base P.name ++ [m, n]) = none := by
    intro m n
    refine dictGet?_eq_none fs0.files _ ?_
    intro kv hkv he
    exact hclean kv hkv (he ▸ underDir_self_append (profileDir base P.name) [m, n])
  have hfold := backup_loop_J cfg base P fs0 hnodup hout P.enabled_modules
    (fun m hm => hm)
    { res := { success := true, module_results := [], errors := [], warnings := [] }
      st := fs0, evs := [] }
    (fun q _ => rfl)
    (fun m hm n => Or.inr ⟨hm, hnone0 m n⟩)
  obtain ⟨hB1, hB2⟩ := hfold
  have hfs1 : (Switcher.backup_to_profile (fsEnv cfg base) P fs0).2.1
      = (((P.enabled_modules.foldl
            (Switcher.backupStep (fsEnv cfg base) P (profileDir base P.name))
            { res := { success := true, module_results := [], errors := [], warnings := [] }
              st := fs0, evs := [] }).st).mkdir (profileDir base P.name)).setFile
          (profileDir base P.name ++ ["profile.json"]) P.name := rfl
  have hJ1fs1 : ∀ q, ¬ underDir base q →
      (Switcher.backup_to_profile (fsEnv cfg base) P fs0).2.1.lookupFile q
        = fs0.lookupFile q := by
    intro q hq
    rw [hfs1, Fs.lookupFile_setFile,
      if_neg (ne_of_not_underDir hq (underDir_profileDir base P.name ["profile.json"])),
      Fs.lookupFile_mkdir]
    exact hB1 q hq
  have hJ2fs1 : ∀ m ∈ P.enabled_modules, ∀ n,
      (Switcher.backup_to_profile (fsEnv cfg base) P fs0).2.1.lookupFile
          (profileDir base P.name ++ [m, n])
        = backupContent cfg fs0 m n := by
    intro m hm n
    rw [hfs1, Fs.lookupFile_setFile, if_neg (ne_meta_profileDir base P.name m n),
      Fs.lookupFile_mkdir]
    exact hB2 m hm n
  have hJauto : (∀ q, ¬ underDir base q →
        (Switcher.auto_backup_affected (fsEnv cfg base) P []
          (Switcher.backup_to_profile (fsEnv cfg base) P fs0).2.1).1.lookupFile q
          = fs0.lookupFile q)
      ∧ (∀ m ∈ P.enabled_modules, ∀ n,
        (Switcher.auto_backup_affected (fsEnv cfg base) P []
          (Switcher.backup_to_profile (fsEnv cfg base) P fs0).2.1).1.lookupFile
            (profileDir base P.name ++ [m, n])
          = backupContent cfg fs0 m n) := by
    unfold Switcher.auto_backup_affected
    have hstep := foldl_preserve_of_mem
      (fun (acc : Fs × List Event) m =>
        (((fsEnv cfg base).backup m
            ((autoOwner P [] m).get_module_options m)
            (autoBackupDir (fsEnv cfg base).base_dir) acc.1).2,
         acc.2 ++ [Event.backupCall m
            ((autoOwner P [] m).get_module_options m)
            (autoBackupDir (fsEnv cfg base).base_dir)]))
      (fun (pr : Fs × List Event) =>
        (∀ q, ¬ underDir base q → pr.1.lookupFile q = fs0.lookupFile q)
        ∧ (∀ m ∈ P.enabled_modules, ∀ n,
            pr.1.lookupFile (profileDir base P.name ++ [m, n])
              = backupContent cfg fs0 m n))
      P.enabled_modules
      (fun pr m hm hpr => by
        have hsepA : ∀ p ∈ cfg m, ¬ underDir (autoBackupDir base ++ [m]) p := by
          intro p hp hu
          exact hout m hm p hp (underDir_base_of_profile_sub base autoBackupName [m] p hu)
        have mb := moduleBackup_state m (cfg m) (autoBackupDir base) pr.1 hsepA
        refine ⟨?_, ?_⟩
        · intro q hq
          have hq2 : ¬ underDir (autoBackupDir base ++ [m]) q := by
            intro hu
            exact hq (underDir_base_of_profile_sub base autoBackupName [m] q hu)
          have hmb := mb.1 q hq2
          exact hmb.trans (hpr.1 q hq)
        · intro m2 hm2 n
          have hnu : ¬ underDir (autoBackupDir base ++ [m])
              (profileDir base P.name ++ [m2, n]) :=
            not_underDir_auto_module base P.name autoBackupName m m2 n hname
          have hmb := mb.1 _ hnu
          exact hmb.trans (hpr.2 m2 hm2 n))
    refine hstep _ ⟨?_, ?_⟩
    · intro q hq
      show (((Switcher.backup_to_profile (fsEnv cfg base) P fs0).2.1.mkdir
          (autoBackupDir base)).setFile (autoBackupDir base ++ ["profile.json"])
          (autoBackupMeta P []).name).lookupFile q = fs0.lookupFile q
      rw [Fs.lookupFile_setFile,
        if_neg (ne_of_not_underDir hq (underDir_autoDir base ["profile.json"])),
        Fs.lookupFile_mkdir]
      exact hJ1fs1 q hq
    · intro m hm n
      show (((Switcher.backup_to_profile (fsEnv cfg base) P fs0).2.1.mkdir
          (autoBackupDir base)).setFile (autoBackupDir base ++ ["profile.json"])
          (autoBackupMeta P []).name).lookupFile (profileDir base P.name ++ [m, n])
        = backupContent cfg fs0 m n
      rw [Fs.lookupFile_setFile,
        if_neg (ne_auto_meta_profileDir base P.name m n),
        Fs.lookupFile_mkdir]
      exact hJ2fs1 m hm n
  have hloadJ := foldl_preserve_of_mem
    (Switcher.loadStep (fsEnv cfg base) P (profileDir base P.name))
    (fun (acc : OpAcc Fs) =>
      (∀ q, ¬ underDir base q → acc.st.lookupFile q = fs0.lookupFile q)
      ∧ (∀ m ∈ P.enabled_modules, ∀ n,
          acc.st.lookupFile (profileDir base P.name ++ [m, n])
            = backupContent cfg fs0 m n))
    P.enabled_modules
    (fun acc m hm hacc => by
      rcases loadStep_st_cases (fsEnv cfg base) P (profileDir base P.name) acc m with hc | hc
      · exact ⟨fun q hq => hc ▸ hacc.1 q hq, fun m2 hm2 n => hc ▸ hacc.2 m2 hm2 n⟩
      · have hc2 : (Switcher.loadStep (fsEnv cfg base) P (profileDir base P.name) acc m).st
            = (moduleRestore m (cfg m) (profileDir base P.name) acc.st).2 := hc
        have mr := moduleRestore_J m (cfg m) (profileDir base P.name) base fs0 acc.st
          (underDir_base_profile base P.name [m])
          (hnodup m hm) (hout m hm) hacc.1
          (fun n => hacc.2 m hm n)
        refine ⟨?_, ?_⟩
        · intro q hq
          rw [hc2]
          exact mr.1 q hq
        · intro m2 hm2 n
          rw [hc2]
          have hu : underDir base (profileDir base P.name ++ [m2, n]) :=
            underDir_base_profile base P.name [m2, n]
          rw [mr.2 _ hu]
          exact hacc.2 m2 hm2 n)
  intro mid hmid p hp
  have hq : ¬ underDir base p := hout mid hmid p hp
  have hJfold := hloadJ
    { res := { success := true, module_results := [], errors := [], warnings := [] }
      st := (Switcher.auto_backup_affected (fsEnv cfg base) P []
        (Switcher.backup_to_profile (fsEnv cfg base) P fs0).2.1).1
      evs := (Switcher.auto_backup_affected (fsEnv cfg base) P []
        (Switcher.backup_to_profile (fsEnv cfg base) P fs0).2.1).2 }
    ⟨hJauto.1, hJauto.2⟩
  unfold Switcher.load_into_stack Switcher.loadFinish
  have htl : ∀ g : Fs, (fsEnv cfg base).touch_last_used P.name g
      = g.setFile (profileDir base P.name ++ ["profile.json"]) P.name := fun g => rfl
  have hboth : ∀ (c : Prop) (inst : Decidable c) (x y : OperationResult × Fs × List Event),
      x.2.1.lookupFile p = fs0.lookupFile p →
      y.2.1.lookupFile p = fs0.lookupFile p →
      (@ite _ c inst x y).2.1.lookupFile p = fs0.lookupFile p := by
    intro c inst x y hx hy
    by_cases h : c
    · simp only [if_pos h]
      exact hx
    · simp only [if_neg h]
      exact hy
  refine hboth _ _ _ _ ?_ ?_
  · dsimp only
    rw [htl, Fs.lookupFile_setFile,
      if_neg (ne_of_not_underDir hq (underDir_profileDir base P.name ["profile.json"]))]
    exact hJfold.1 p hq
  · dsimp only
    exact hJfold.1 p hq

/-- Config map for the round-trip witness: every module owns the single
path `cfg/a.txt`, outside the profiles storage area. -/
def wCfg : String → List DirPath := fun _ => [["cfg", "a.txt"]]

/-- Initial world for the round-trip witness: the live config exists and
the profiles area is empty. -/
def wFs0 : Fs := { files := [(["cfg", "a.txt"], "live")], dirs := [] }

/-- Witness for the amended Claim C8 theorem: the hypotheses hold at the
concrete input (profile `P`, config `cfg/a.txt`, clean store) and the
round trip there preserves every config path's content. -/
theorem backup_then_load_round_trip_witness :
    ((∀ mid ∈ profP.enabled_modules, ((wCfg mid).map pathBaseName).Nodup)
      ∧ (∀ mid ∈ profP.enabled_modules, ∀ p ∈ wCfg mid, ¬ underDir ["profiles"] p)
      ∧ (∀ kv ∈ wFs0.files, ¬ underDir (profileDir ["profiles"] profP.name) kv.1)
      ∧ profP.name ≠ autoBackupName)
    ∧ (∀ mid ∈ profP.enabled_modules, ∀ p ∈ wCfg mid,
        Fs.lookupFile
            (Switcher.load_into_stack (fsEnv wCfg ["profiles"]) profP [] true
              (Switcher.backup_to_profile (fsEnv wCfg ["profiles"]) profP wFs0).2.1).2.1 p
          = Fs.lookupFile wFs0 p) :=
  ⟨⟨by decide, by unfold underDir; decide, by unfold underDir; decide, by decide⟩,
   backup_then_load_round_trip wCfg ["profiles"] profP wFs0
     (by decide) (by unfold underDir; decide) (by unfold underDir; decide) (by decide)⟩
